import Mathlib

/-!
# NodePool controller: naming, autoscaling validation and the reconcile pass

A shallow embedding of
`hypershift-operator/controllers/nodepool/nodepool_controller.go`.

* Go strings are byte sequences: `len` counts bytes and `s[i:j]` slices bytes,
  so a string is a `List UInt8`.
* A Go slice expression with a bound outside the string aborts the program;
  functions that slice return `Option`, with `none` standing for that abort.
  Calls that can also return an error end in a `Call`, and a pass of
  `reconcile` in an `Outcome`; both have a case for the abort (nil
  dereference, assignment into a nil map).
* Go `int` and `int32` values are modelled by `Int`.  The only arithmetic is
  `maxLength - 10 - len(suffix)` and `maxLength - 9` in `getName`, with
  `maxLength > 0`, which stays inside the 64-bit range for every string that
  fits in memory.
* Pointers are `Option`s, `none` being nil.
* The API server is a store of objects passed through the pass explicitly; the
  library calls `CreateOrUpdate` and `SetStatusCondition` are modelled after
  controller-runtime and apimachinery.
-/

namespace Nodepool

/-! ## Strings -/

/-- A Go string: an immutable sequence of bytes. -/
abbrev GoString := List UInt8

/-- The bytes (UTF-8) of a string literal of the source. -/
def str (s : String) : GoString := s.toList.flatMap String.utf8EncodeChar

/-- Go `len(s)`. -/
def len (s : GoString) : Int := (s.length : Int)

/-- Go `s[lo:hi]` on a string: aborts (`none`) unless `0 ≤ lo ≤ hi ≤ len(s)`. -/
def slice (s : GoString) (lo hi : Int) : Option GoString :=
  if 0 ≤ lo ∧ lo ≤ hi ∧ hi ≤ len s then
    some ((s.take hi.toNat).drop lo.toNat)
  else
    none

/-- The format `"%s-%s"` applied to two strings. -/
def sprintfDash (a b : GoString) : GoString := a ++ str "-" ++ b

/-- The format `"%s-%s-%s"` applied to three strings. -/
def sprintfDash3 (a b c : GoString) : GoString := a ++ str "-" ++ b ++ str "-" ++ c

/-! ## `hash`: FNV-1a, 32 bits, printed with `%08x` -/

/-- One round of 32-bit FNV-1a: xor the byte in, multiply by the FNV prime. -/
def fnvStep (h : Nat) (b : UInt8) : Nat := ((h ^^^ b.toNat) * 16777619) % 2 ^ 32

/-- The sum `fnv.New32a()` holds after writing the bytes of `s`. -/
def fnv32a (s : GoString) : Nat := s.foldl fnvStep 2166136261

/-- One lower-case hexadecimal digit. -/
def hexDigit (d : Nat) : UInt8 :=
  if d < 10 then UInt8.ofNat (48 + d) else UInt8.ofNat (87 + d)

/-- The format `"%08x"` applied to a 32-bit unsigned value: eight digits,
zero padded. -/
def hex8 (n : Nat) : GoString :=
  [hexDigit (n / 16 ^ 7 % 16), hexDigit (n / 16 ^ 6 % 16), hexDigit (n / 16 ^ 5 % 16),
   hexDigit (n / 16 ^ 4 % 16), hexDigit (n / 16 ^ 3 % 16), hexDigit (n / 16 ^ 2 % 16),
   hexDigit (n / 16 % 16), hexDigit (n % 16)]

/-- Source `hash`: the 8-character hexadecimal FNV-1a sum of `s`. -/
def hash (s : GoString) : GoString := hex8 (fnv32a s)

/-! ## `getName` and `generateMachineSetName` -/

/-- Source `max`: the greater of its two inputs. -/
def max (a b : Int) : Int := if b > a then b else a

/-- Source `min`: the lesser of its two inputs. -/
def min (a b : Int) : Int := if b < a then b else a

/-- Source `getName`.  `none` is an out-of-range slice. -/
def getName (base suffix : GoString) (maxLength : Int) : Option GoString :=
  if maxLength ≤ 0 then
    some []
  else
    let name := sprintfDash base suffix
    if len name ≤ maxLength then
      some name
    else
      let baseLength := maxLength - 10 - len suffix
      if baseLength < 0 then
        match slice base 0 (min (len base) (max 0 (maxLength - 9))) with
        | none => none
        | some pre =>
          let shortName := sprintfDash pre (hash name)
          slice shortName 0 (min maxLength (len shortName))
      else
        match slice base 0 baseLength with
        | none => none
        | some pre => some (sprintfDash3 pre (hash base) suffix)

/-- Source `generateMachineSetName`. -/
def generateMachineSetName (infraName clusterName suffix : GoString) : Option GoString :=
  getName (sprintfDash infraName clusterName) suffix 43

/-! ## The naming scheme as the specification words it -/

/-- The first `n` characters of `s`; nothing when `n` is not positive. -/
def truncate (s : GoString) (n : Int) : GoString := s.take n.toNat

/-- The two-tier shortening of the specification, for a candidate that is too
long: with `budget = maxLength - 10 - len(suffix)`, a non-negative budget gives
`truncate(base, budget) + "-" + hash(base) + "-" + suffix`; otherwise the
candidate is hashed, `base` is cut to `maxLength - 9` characters and the splice
is cut to `maxLength`. -/
def specShorten (base suffix : GoString) (maxLength : Int) : GoString :=
  let budget := maxLength - 10 - len suffix
  if 0 ≤ budget then
    truncate base budget ++ str "-" ++ hash base ++ str "-" ++ suffix
  else
    truncate (truncate base (maxLength - 9) ++ str "-" ++ hash (base ++ str "-" ++ suffix))
      maxLength

/-! ## Go maps, results of calls, errors -/

/-- The entries of a Go `map[string]string`. -/
abbrev Entries := List (GoString × GoString)

/-- A Go `map[string]string` value; `none` is the nil map. -/
abbrev GoMap := Option Entries

/-- The value stored under `k`, if any. -/
def mapLookup (k : GoString) : Entries → Option GoString
  | [] => none
  | (k1, v1) :: rest => if k1 = k then some v1 else mapLookup k rest

/-- Store `v` under `k`, replacing the value already there. -/
def mapSet (k v : GoString) : Entries → Entries
  | [] => [(k, v)]
  | (k1, v1) :: rest => if k1 = k then (k, v) :: rest else (k1, v1) :: mapSet k v rest

/-- Remove `k`. -/
def mapDelete (k : GoString) : Entries → Entries
  | [] => []
  | (k1, v1) :: rest => if k1 = k then mapDelete k rest else (k1, v1) :: mapDelete k rest

/-- Go `m[k]` read with the comma-ok form: a nil map has no entries. -/
def GoMap.lookup (m : GoMap) (k : GoString) : Option GoString :=
  match m with
  | none => none
  | some es => mapLookup k es

/-- Go `delete(m, k)`: a no-op on a nil map and on an absent key. -/
def GoMap.delete (m : GoMap) (k : GoString) : GoMap :=
  match m with
  | none => none
  | some es => some (mapDelete k es)

/-- Go `m[k] = v`: assignment to an entry of a nil map aborts (`none`). -/
def GoMap.assign (m : GoMap) (k v : GoString) : Option GoMap :=
  match m with
  | none => none
  | some es => some (some (mapSet k v es))

/-- Errors the controller produces or passes on. -/
inductive Error where
  /-- An error returned by an API call, other than NotFound. -/
  | api (msg : GoString)
  /-- "max and min must be not nil" -/
  | maxMinNil
  /-- "max must be equal or greater than min" -/
  | maxLessThanMin (max min : Int)
  /-- "max and min must be not zero" -/
  | maxMinZero (max min : Int)
  /-- "no machinesets found" -/
  | noMachineSets
  /-- "error finding AMI" -/
  | amiNotFound
  /-- The error of `CreateOrUpdate` when the mutate function changed the key. -/
  | mutatedKey
  /-- An error wrapped with `fmt.Errorf("...: %w", err)`. -/
  | wrap (context : GoString) (cause : Error)
  deriving DecidableEq

/-- How a call that may fail ends: it returns a value, returns an error, or the
program aborts (nil dereference, assignment into a nil map, slice out of range). -/
inductive Call (α : Type) where
  | ok (a : α)
  | err (e : Error)
  | panic
  deriving DecidableEq

/-- Go `strconv.Itoa`. -/
def Itoa (n : Int) : GoString := str (toString n)

/-! ## API types

The structures list the fields the controller reads or writes; `hyperv1`,
`capiv1`, `capiaws`, `metav1`, `ctrl` are the import names of the source. -/

/-- Namespace and name of an object: `client.ObjectKey`. -/
structure ObjectKey where
  Namespace : GoString
  Name : GoString
  deriving DecidableEq

namespace metav1

/-- The values of `metav1.ConditionStatus`. -/
inductive ConditionStatus where
  | ConditionTrue
  | ConditionFalse
  | ConditionUnknown
  deriving DecidableEq

/-- The text of a condition: a literal or the `Error()` of an error. -/
inductive Message where
  | text (s : GoString)
  | ofError (e : Error)
  deriving DecidableEq

/-- The type `metav1.Condition`. -/
structure Condition where
  Type_ : GoString
  Status : ConditionStatus
  LastTransitionTime : Option Nat
  Reason : GoString
  Message : Message
  deriving DecidableEq

end metav1

namespace hyperv1

/-- A subnet filter of the node pool API. -/
structure Filter where
  Name : GoString
  Values : List GoString
  deriving DecidableEq

/-- A reference to an AWS resource in the node pool API. -/
structure AWSResourceReference where
  ID : Option GoString
  ARN : Option GoString
  Filters : List Filter
  deriving DecidableEq

/-- The value `nodePool.Spec.Platform.AWS`. -/
structure AWSNodePoolPlatform where
  InstanceType : GoString
  InstanceProfile : GoString
  Subnet : Option AWSResourceReference
  deriving DecidableEq

/-- The value `nodePool.Spec.AutoScaling`: two `*int` bounds. -/
structure NodePoolAutoScaling where
  Min : Option Int
  Max : Option Int
  deriving DecidableEq

/-- The value `nodePool.Spec`; `NodeCount` is a `*int32`. -/
structure NodePoolSpec where
  ClusterName : GoString
  NodeCount : Option Int
  AutoScaling : Option NodePoolAutoScaling
  AWS : AWSNodePoolPlatform
  deriving DecidableEq

/-- The value `nodePool.Status`. -/
structure NodePoolStatus where
  NodeCount : Int
  Conditions : List metav1.Condition
  deriving DecidableEq

/-- A node pool declaration. -/
structure NodePool where
  Name : GoString
  Namespace : GoString
  Finalizers : List GoString
  DeletionTimestamp : Option Nat
  Spec : NodePoolSpec
  Status : NodePoolStatus
  deriving DecidableEq

/-- Modelled from the spec: the constant is declared with the node pool API
types, which are not among the sources; the specification calls it the
autoscaling condition. -/
def NodePoolAutoscalingEnabledConditionType : GoString := str "AutoscalingEnabled"

/-- Modelled from the spec: the constant is declared with the node pool API
types, which are not among the sources; the specification names the reason
ValidationFailed. -/
def NodePoolValidationFailedConditionReason : GoString := str "ValidationFailed"

/-- Modelled from the spec: the constant is declared with the node pool API
types, which are not among the sources; the specification names the reason
AsExpected. -/
def NodePoolAsExpectedConditionReason : GoString := str "AsExpected"

/-- The owning cluster; the controller reads its name. -/
structure HostedCluster where
  Name : GoString
  deriving DecidableEq

end hyperv1

namespace configv1

/-- The infrastructure singleton: `Status.InfrastructureName` and
`Status.PlatformStatus.AWS.Region`. -/
structure Infrastructure where
  InfrastructureName : GoString
  Region : GoString
  deriving DecidableEq

end configv1

namespace capiaws

/-- A filter of the AWS provider API. -/
structure Filter where
  Name : GoString
  Values : List GoString
  deriving DecidableEq

/-- A reference to an AWS resource in the AWS provider API. -/
structure AWSResourceReference where
  ID : Option GoString
  ARN : Option GoString
  Filters : List Filter
  deriving DecidableEq

/-- Cloud-init settings of a machine. -/
structure CloudInit where
  InsecureSkipSecretsManager : Bool
  SecureSecretsBackend : GoString
  deriving DecidableEq

/-- The launch specification of a machine. -/
structure AWSMachineSpec where
  UncompressedUserData : Option Bool
  CloudInit : CloudInit
  IAMInstanceProfile : GoString
  InstanceType : GoString
  AMI : AWSResourceReference
  Subnet : Option AWSResourceReference
  deriving DecidableEq

/-- The compute-template; `Spec` is `Spec.Template.Spec` of the source. -/
structure AWSMachineTemplate where
  Name : GoString
  Namespace : GoString
  Spec : AWSMachineSpec
  deriving DecidableEq

end capiaws

namespace corev1

/-- The type `corev1.ObjectReference`. -/
structure ObjectReference where
  Namespace : GoString
  Name : GoString
  APIVersion : GoString
  Kind : GoString
  deriving DecidableEq

end corev1

namespace capiv1

/-- The label `capiv1.ClusterLabelName` of the cluster API. -/
def ClusterLabelName : GoString := str "cluster.x-k8s.io/cluster-name"

/-- The value `Spec.Template.Spec` of a machine set. -/
structure MachineSpec where
  DataSecretName : Option GoString
  ClusterName : GoString
  InfrastructureRef : corev1.ObjectReference
  deriving DecidableEq

/-- The value `Spec.Template` of a machine set. -/
structure MachineTemplateSpec where
  Labels : GoMap
  Spec : MachineSpec
  deriving DecidableEq

/-- The value `Spec` of a machine set; `Replicas` is a `*int32`. -/
structure MachineSetSpec where
  ClusterName : GoString
  Replicas : Option Int
  MatchLabels : GoMap
  Template : MachineTemplateSpec
  deriving DecidableEq

/-- The value `Status` of a machine set. -/
structure MachineSetStatus where
  AvailableReplicas : Int
  deriving DecidableEq

/-- The compute-group. -/
structure MachineSet where
  Name : GoString
  Namespace : GoString
  Annotations : GoMap
  Labels : GoMap
  Spec : MachineSetSpec
  Status : MachineSetStatus
  deriving DecidableEq

end capiv1

namespace ctrl

/-- The type `ctrl.Result`. -/
structure Result where
  Requeue : Bool
  RequeueAfter : Nat
  deriving DecidableEq

end ctrl

/-! ## The API server as the controller sees it

The objects of one kind are a list; an object is found by its namespace and
name.  `Get` fills the object passed to it with the stored one, `Create` adds
an object and `Update` replaces the stored object of the same key.  Each call
can also fail with an error of the API machinery; which calls fail during a
pass is part of the environment of the pass. -/

/-- The stored compute-groups and compute-templates. -/
structure Store where
  machineSets : List capiv1.MachineSet
  templates : List capiaws.AWSMachineTemplate
  deriving DecidableEq

/-- Key of a machine set: `client.ObjectKeyFromObject`. -/
def capiv1.MachineSet.key (o : capiv1.MachineSet) : ObjectKey :=
  { Namespace := o.Namespace, Name := o.Name }

/-- Key of a template: `client.ObjectKeyFromObject`. -/
def capiaws.AWSMachineTemplate.key (o : capiaws.AWSMachineTemplate) : ObjectKey :=
  { Namespace := o.Namespace, Name := o.Name }

/-- The stored object with key `key`, if there is one. -/
def storeGet {α : Type} (keyOf : α → ObjectKey) (key : ObjectKey) : List α → Option α
  | [] => none
  | o :: rest => if keyOf o = key then some o else storeGet keyOf key rest

/-- The store after `Create(obj)`. -/
def storeCreate {α : Type} (objs : List α) (obj : α) : List α := objs ++ [obj]

/-- The store after `Update(obj)`: `obj` takes the place of the stored object
with its key. -/
def storeUpdate {α : Type} (keyOf : α → ObjectKey) (obj : α) : List α → List α
  | [] => []
  | o :: rest =>
    if keyOf o = keyOf obj then obj :: rest else o :: storeUpdate keyOf obj rest

/-- What `unstructured.NestedString(object, "spec", "template", "spec",
"providerSpec", "value", "ami", "id")` returns on a listed machine set: the
string, not found, or an error for a value of another type. -/
inductive NestedString where
  | found (s : GoString)
  | absent
  | malformed
  deriving DecidableEq

/-- The environment of one pass: the error, if any, each API call of the pass
returns (an error other than NotFound), the machine sets listed in the
namespace `openshift-machine-api`, and the clock. -/
structure Env where
  /-- Get of the current machine set in `reconcile`. -/
  getMachineSetErr : Option GoString
  /-- List in `generateScalableResources`. -/
  listErr : Option GoString
  /-- Items of that list, each seen through the AMI lookup. -/
  listItems : List NestedString
  /-- Get inside `CreateOrUpdate` of the template. -/
  templateGetErr : Option GoString
  /-- Create or Update inside `CreateOrUpdate` of the template. -/
  templateWriteErr : Option GoString
  /-- Get inside `CreateOrUpdate` of the machine set. -/
  machineSetGetErr : Option GoString
  /-- Create or Update inside `CreateOrUpdate` of the machine set. -/
  machineSetWriteErr : Option GoString
  /-- The value of `time.Now()`. -/
  now : Nat
  deriving DecidableEq

/-- Library `controllerutil.CreateOrUpdate` (controller-runtime): read the
object with the key of `obj` into `obj`; when absent, apply the mutate function
to `obj` as passed in and create it; when present, apply the mutate function to
the object read and update it unless nothing changed.  A mutate function that
changes the key is an error.  Returns the store and `obj` as the call leaves it. -/
def CreateOrUpdate {α : Type} [DecidableEq α] (keyOf : α → ObjectKey)
    (getErr writeErr : Option GoString) (objs : List α) (obj : α) (f : α → Call α) :
    List α × Call α :=
  let key := keyOf obj
  match getErr with
  | some e => (objs, .err (.api e))
  | none =>
    match storeGet keyOf key objs with
    | none =>
      match f obj with
      | .ok mutated =>
        if keyOf mutated ≠ key then (objs, .err .mutatedKey)
        else
          match writeErr with
          | some e => (objs, .err (.api e))
          | none => (storeCreate objs mutated, .ok mutated)
      | .err e => (objs, .err e)
      | .panic => (objs, .panic)
    | some existing =>
      match f existing with
      | .ok mutated =>
        if keyOf mutated ≠ key then (objs, .err .mutatedKey)
        else if existing = mutated then (objs, .ok mutated)
        else
          match writeErr with
          | some e => (objs, .err (.api e))
          | none => (storeUpdate keyOf mutated objs, .ok mutated)
      | .err e => (objs, .err e)
      | .panic => (objs, .panic)

/-- Library `meta.SetStatusCondition` (apimachinery): the first condition of the
type is updated in place, its transition time only when the status changes; a
new condition is appended. -/
def SetStatusCondition (now : Nat) :
    List metav1.Condition → metav1.Condition → List metav1.Condition
  | [], n => [{ n with LastTransitionTime := some (n.LastTransitionTime.getD now) }]
  | c :: rest, n =>
    if c.Type_ = n.Type_ then
      { c with
        Status := n.Status
        LastTransitionTime :=
          if c.Status ≠ n.Status then some (n.LastTransitionTime.getD now)
          else c.LastTransitionTime
        Reason := n.Reason
        Message := n.Message } :: rest
    else c :: SetStatusCondition now rest n

/-! ## The controller -/

/-- Source constant `autoscalerMaxAnnotation`. -/
def autoscalerMaxAnnotation : GoString :=
  str "cluster.x-k8s.io/cluster-api-autoscaler-node-group-max-size"

/-- Source constant `autoscalerMinAnnotation`. -/
def autoscalerMinAnnotation : GoString :=
  str "cluster.x-k8s.io/cluster-api-autoscaler-node-group-min-size"

/-- Source `isAutoscalingEnabled`. -/
def isAutoscalingEnabled (nodePool : hyperv1.NodePool) : Bool :=
  nodePool.Spec.AutoScaling.isSome

/-- Source `validateAutoscalingParameters`.  It reads through the pointer
`nodePool.Spec.AutoScaling`, so a nil pointer aborts. -/
def validateAutoscalingParameters (nodePool : hyperv1.NodePool) : Call Unit :=
  match nodePool.Spec.AutoScaling with
  | none => .panic
  | some a =>
    match a.Max, a.Min with
    | some max, some min =>
      if max < min then .err (.maxLessThanMin max min)
      else if max = 0 ∧ min = 0 then .err (.maxMinZero max min)
      else .ok ()
    | _, _ => .err .maxMinNil

/-- Source `Int32PtrDerefOr`. -/
def Int32PtrDerefOr (ptr : Option Int) (dflt : Int) : Int :=
  match ptr with
  | some v => v
  | none => dflt

/-- Source `generateScalableResources`: the compute-group and compute-template
compiled from a node pool.  `machinesetReplicas` is a `*int32`. -/
def generateScalableResources (env : Env) (infraName region : GoString)
    (nodePool : hyperv1.NodePool) (targetNamespace : GoString)
    (machinesetReplicas : Option Int) :
    Call (capiv1.MachineSet × capiaws.AWSMachineTemplate) :=
  -- find AMI
  match env.listErr with
  | some e => .err (.wrap (str "failed to list machinesets") (.api e))
  | none =>
    match env.listItems with
    | [] => .err .noMachineSets
    | .absent :: _ => .err .amiNotFound
    | .malformed :: _ => .err .amiNotFound
    | .found AMI :: _ =>
      let subnet : capiaws.AWSResourceReference :=
        match nodePool.Spec.AWS.Subnet with
        | some s =>
          { ID := s.ID
            ARN := s.ARN
            Filters := s.Filters.map fun f => { Name := f.Name, Values := f.Values } }
        | none =>
          { ID := none
            ARN := none
            Filters :=
              [{ Name := str "tag:Name"
                 Values := [infraName ++ str "-private-" ++ region ++ str "a"] }] }
      let instanceProfile :=
        if nodePool.Spec.AWS.InstanceProfile ≠ [] then nodePool.Spec.AWS.InstanceProfile
        else infraName ++ str "-worker-profile"
      let instanceType := nodePool.Spec.AWS.InstanceType
      match generateMachineSetName infraName nodePool.Spec.ClusterName nodePool.Name with
      | none => .panic
      | some resourcesName =>
        let dataSecretName := nodePool.Spec.ClusterName ++ str "-user-data"
        let AWSMachineTemplate : capiaws.AWSMachineTemplate :=
          { Name := resourcesName
            Namespace := targetNamespace
            Spec :=
              { UncompressedUserData := some true
                CloudInit :=
                  { InsecureSkipSecretsManager := true
                    SecureSecretsBackend := str "secrets-manager" }
                IAMInstanceProfile := instanceProfile
                InstanceType := instanceType
                AMI := { ID := some AMI, ARN := none, Filters := [] }
                Subnet := some subnet } }
        let annotations : Entries :=
          [(str "machine.cluster.x-k8s.io/exclude-node-draining", str "true")]
        let annotated : Call Entries :=
          if isAutoscalingEnabled nodePool then
            match nodePool.Spec.AutoScaling with
            | none => .panic
            | some a =>
              match a.Max with
              | none => .ok annotations
              | some max =>
                if max > 0 then
                  match a.Min with
                  | none => .panic
                  | some min =>
                    .ok (mapSet autoscalerMaxAnnotation (Itoa max)
                      (mapSet autoscalerMinAnnotation (Itoa min) annotations))
                else .ok annotations
          else .ok annotations
        match annotated with
        | .panic => .panic
        | .err e => .err e
        | .ok annotations =>
          let machineSet : capiv1.MachineSet :=
            { Name := resourcesName
              Namespace := targetNamespace
              Annotations := some annotations
              Labels := some (mapSet capiv1.ClusterLabelName infraName [])
              Spec :=
                { ClusterName := nodePool.Spec.ClusterName
                  Replicas := machinesetReplicas
                  MatchLabels := some (mapSet resourcesName resourcesName [])
                  Template :=
                    { Labels :=
                        some (mapSet capiv1.ClusterLabelName infraName
                          (mapSet resourcesName resourcesName []))
                      Spec :=
                        { DataSecretName := some dataSecretName
                          ClusterName := nodePool.Spec.ClusterName
                          InfrastructureRef :=
                            { Namespace := nodePool.Namespace
                              Name := resourcesName
                              APIVersion := str "infrastructure.cluster.x-k8s.io/v1alpha3"
                              Kind := str "AWSMachineTemplate" } } } }
              Status := { AvailableReplicas := 0 } }
          .ok (machineSet, AWSMachineTemplate)

/-- How a pass of `reconcile` ends: it returns a result and possibly an error,
or the program aborts. -/
inductive Outcome where
  | returned (result : ctrl.Result) (err : Option Error)
  | panicked
  deriving DecidableEq

/-- The zero value `ctrl.Result{}`. -/
def ctrl.Result.zero : ctrl.Result := { Requeue := false, RequeueAfter := 0 }

/-- The node pool object, the store and the outcome at the end of a pass. -/
structure PassEnd where
  nodePool : hyperv1.NodePool
  store : Store
  outcome : Outcome
  deriving DecidableEq

/-- Where the mode resolution of `reconcile` leaves the pass: it goes on with a
wanted replica count, or the pass ends. -/
inductive ModeStep where
  | proceed (wantedMachinesetReplicas : Int)
  | stop (outcome : Outcome)
  deriving DecidableEq

/-- Mode resolution of source `reconcile`, from `wantedMachinesetReplicas :=`
to the end of `if isAutoscalingEnabled`: validate the bounds, reset the fixed
count, look the current machine set up.  Returns the node pool object as the
step leaves it. -/
def reconcileMode (env : Env) (key : ObjectKey) (nodePool : hyperv1.NodePool) (store : Store) :
    hyperv1.NodePool × ModeStep :=
  let wantedMachinesetReplicas := Int32PtrDerefOr nodePool.Spec.NodeCount 0
  if isAutoscalingEnabled nodePool then
    match validateAutoscalingParameters nodePool with
    | .panic => (nodePool, .stop .panicked)
    | .err e =>
      ({ nodePool with
          Status.Conditions :=
            SetStatusCondition env.now nodePool.Status.Conditions
              { Type_ := hyperv1.NodePoolAutoscalingEnabledConditionType
                Status := .ConditionFalse
                LastTransitionTime := none
                Reason := hyperv1.NodePoolValidationFailedConditionReason
                Message := .ofError e } },
        .stop (.returned ctrl.Result.zero
          (some (.wrap (str "error validating autoscaling parameters") e))))
    | .ok () =>
      -- if autoscaling is enabled always reconcile back NodeCount to nil
      let nodePool := { nodePool with Spec.NodeCount := none }
      match env.getMachineSetErr with
      | some e => (nodePool, .stop (.returned ctrl.Result.zero (some (.api e))))
      | none =>
        match storeGet capiv1.MachineSet.key key store.machineSets with
        | none =>
          -- the machineSet does not exist yet: start with 1 replica
          (nodePool, .proceed 1)
        | some _ => (nodePool, .proceed wantedMachinesetReplicas)
  else (nodePool, .proceed wantedMachinesetReplicas)

/-- The mutate function `reconcile` passes to `CreateOrUpdate` for the machine
set. -/
def mutateMachineSet (isAutoscalingEnabled : Bool) (nodePool : hyperv1.NodePool)
    (wantedMachineSet : capiv1.MachineSet) : Call capiv1.MachineSet :=
  -- only reconcile machineSet replicas if autoscaler is not enable.
  let wantedMachineSet :=
    if !isAutoscalingEnabled then
      { wantedMachineSet with
        Spec.Replicas := nodePool.Spec.NodeCount
        Annotations :=
          (wantedMachineSet.Annotations.delete autoscalerMinAnnotation).delete
            autoscalerMaxAnnotation }
    else wantedMachineSet
  if isAutoscalingEnabled then
    match nodePool.Spec.AutoScaling with
    | none => .panic
    | some a =>
      match a.Max with
      | none => .panic
      | some max =>
        match wantedMachineSet.Annotations.assign autoscalerMaxAnnotation (Itoa max) with
        | none => .panic
        | some annotations =>
          match a.Min with
          | none => .panic
          | some min =>
            match annotations.assign autoscalerMinAnnotation (Itoa min) with
            | none => .panic
            | some annotations => .ok { wantedMachineSet with Annotations := annotations }
  else .ok wantedMachineSet

/-- The two `CreateOrUpdate` calls of source `reconcile`: the template with a
mutate function that changes nothing, then the machine set. -/
def reconcileUpsert (env : Env) (isAutoscalingEnabled : Bool) (nodePool : hyperv1.NodePool)
    (wantedMachineSet : capiv1.MachineSet) (AWSMachineTemplate : capiaws.AWSMachineTemplate)
    (store : Store) : Store × Call capiv1.MachineSet :=
  match CreateOrUpdate capiaws.AWSMachineTemplate.key env.templateGetErr env.templateWriteErr
      store.templates AWSMachineTemplate (fun t => .ok t) with
  | (templates, .err e) => ({ store with templates := templates }, .err e)
  | (templates, .panic) => ({ store with templates := templates }, .panic)
  | (templates, .ok _) =>
    match CreateOrUpdate capiv1.MachineSet.key env.machineSetGetErr env.machineSetWriteErr
        store.machineSets wantedMachineSet (mutateMachineSet isAutoscalingEnabled nodePool) with
    | (machineSets, r) => ({ machineSets := machineSets, templates := templates }, r)

/-- The status update of source `reconcile`, from `nodePool.Status.NodeCount =`
to the end of the function. -/
def reconcileStatus (env : Env) (isAutoscalingEnabled : Bool) (nodePool : hyperv1.NodePool)
    (wantedMachineSet : capiv1.MachineSet) : hyperv1.NodePool × Outcome :=
  let nodePool :=
    { nodePool with Status.NodeCount := wantedMachineSet.Status.AvailableReplicas }
  if !isAutoscalingEnabled then
    let nodePool :=
      { nodePool with
        Status.Conditions :=
          SetStatusCondition env.now nodePool.Status.Conditions
            { Type_ := hyperv1.NodePoolAutoscalingEnabledConditionType
              Status := .ConditionFalse
              LastTransitionTime := none
              Reason := hyperv1.NodePoolAsExpectedConditionReason
              Message := .text [] } }
    match nodePool.Spec.NodeCount with
    | none => (nodePool, .panicked)
    | some nodeCount =>
      if nodePool.Status.NodeCount ≠ nodeCount then
        (nodePool, .returned { Requeue := true, RequeueAfter := 0 } none)
      else (nodePool, .returned ctrl.Result.zero none)
  else
    ({ nodePool with
        Status.Conditions :=
          SetStatusCondition env.now nodePool.Status.Conditions
            { Type_ := hyperv1.NodePoolAutoscalingEnabledConditionType
              Status := .ConditionTrue
              LastTransitionTime := none
              Reason := hyperv1.NodePoolAsExpectedConditionReason
              Message := .text (str "Ignoring nodeCount") } },
      .returned ctrl.Result.zero none)

/-- Where source `reconcile` stands when the upserts are done: the pass has
ended (an error was returned or the program aborted), or it is about to update
the status, with the local `isAutoscalingEnabled` and the node pool object, the
store and `wantedMachineSet` as the upsert left them. -/
inductive Converged where
  | ended (passEnd : PassEnd)
  | upserted (isAutoscalingEnabled : Bool) (nodePool : hyperv1.NodePool) (store : Store)
      (wantedMachineSet : capiv1.MachineSet)
  deriving DecidableEq

/-- Source `NodePoolReconciler.reconcile` up to and including the two
`CreateOrUpdate` calls.  (The owner reference it sets on the node pool is not
part of the model.) -/
def reconcileConverge (env : Env) (hcluster : hyperv1.HostedCluster)
    (infra : configv1.Infrastructure) (nodePool : hyperv1.NodePool) (store : Store) :
    Converged :=
  match generateMachineSetName infra.InfrastructureName nodePool.Spec.ClusterName
      nodePool.Name with
  | none => .ended { nodePool := nodePool, store := store, outcome := .panicked }
  | some machineSetName =>
    let targetNamespace := hcluster.Name
    let isAutoscalingEnabled := isAutoscalingEnabled nodePool
    match reconcileMode env { Namespace := targetNamespace, Name := machineSetName }
        nodePool store with
    | (nodePool, .stop outcome) =>
      .ended { nodePool := nodePool, store := store, outcome := outcome }
    | (nodePool, .proceed wantedMachinesetReplicas) =>
      -- Create a machine scalable resources for the new cluster's worker nodes
      match generateScalableResources env infra.InfrastructureName infra.Region nodePool
          targetNamespace (some wantedMachinesetReplicas) with
      | .panic => .ended { nodePool := nodePool, store := store, outcome := .panicked }
      | .err e =>
        .ended
          { nodePool := nodePool, store := store,
            outcome := .returned ctrl.Result.zero
              (some (.wrap (str "failed to generate worker machineset") e)) }
      | .ok (wantedMachineSet, AWSMachineTemplate) =>
        match reconcileUpsert env isAutoscalingEnabled nodePool wantedMachineSet
            AWSMachineTemplate store with
        | (store, .panic) =>
          .ended { nodePool := nodePool, store := store, outcome := .panicked }
        | (store, .err e) =>
          .ended
            { nodePool := nodePool, store := store,
              outcome := .returned ctrl.Result.zero (some e) }
        | (store, .ok wantedMachineSet) =>
          .upserted isAutoscalingEnabled nodePool store wantedMachineSet

/-- Source `NodePoolReconciler.reconcile`: the upserts, then the status
update. -/
def reconcile (env : Env) (hcluster : hyperv1.HostedCluster) (infra : configv1.Infrastructure)
    (nodePool : hyperv1.NodePool) (store : Store) : PassEnd :=
  match reconcileConverge env hcluster infra nodePool store with
  | .ended passEnd => passEnd
  | .upserted isAutoscalingEnabled nodePool store wantedMachineSet =>
    match reconcileStatus env isAutoscalingEnabled nodePool wantedMachineSet with
    | (nodePool, outcome) => { nodePool := nodePool, store := store, outcome := outcome }

/-- The available replica count `reconcile` reads off `wantedMachineSet` in the
status update, for a pass that gets there. -/
def observedReplicas (env : Env) (hcluster : hyperv1.HostedCluster)
    (infra : configv1.Infrastructure) (nodePool : hyperv1.NodePool) (store : Store) :
    Option Int :=
  match reconcileConverge env hcluster infra nodePool store with
  | .ended _ => none
  | .upserted _ _ _ wantedMachineSet => some wantedMachineSet.Status.AvailableReplicas

/-! ## Example objects -/

/-- A platform section with the defaults: no subnet, no instance profile. -/
def examplePlatform : hyperv1.AWSNodePoolPlatform :=
  { InstanceType := str "m5.large", InstanceProfile := [], Subnet := none }

/-- The node pool "p1" of cluster "c1" with the given fixed count and
autoscaling section. -/
def examplePool (nodeCount : Option Int) (autoScaling : Option hyperv1.NodePoolAutoScaling) :
    hyperv1.NodePool :=
  { Name := str "p1"
    Namespace := str "clusters"
    Finalizers := [str "hypershift.openshift.io/finalizer"]
    DeletionTimestamp := none
    Spec :=
      { ClusterName := str "c1"
        NodeCount := nodeCount
        AutoScaling := autoScaling
        AWS := examplePlatform }
    Status := { NodeCount := 0, Conditions := [] } }

/-- An autoscaling section with both bounds set. -/
def bounds (min max : Int) : hyperv1.NodePoolAutoScaling := { Min := some min, Max := some max }

/-- An environment in which no API call fails and one machine set with an AMI
is listed. -/
def quietEnv : Env :=
  { getMachineSetErr := none
    listErr := none
    listItems := [.found (str "ami-0123")]
    templateGetErr := none
    templateWriteErr := none
    machineSetGetErr := none
    machineSetWriteErr := none
    now := 0 }

/-- The hosted cluster "c1". -/
def exampleCluster : hyperv1.HostedCluster := { Name := str "c1" }

/-- The infrastructure "infra-x" in region "us-east-1". -/
def exampleInfra : configv1.Infrastructure :=
  { InfrastructureName := str "infra-x", Region := str "us-east-1" }

/-- The key of the resources generated for the example pool. -/
def exampleKey : ObjectKey := { Namespace := str "c1", Name := str "infra-x-c1-p1" }

/-- A store with no compute-group and no compute-template. -/
def emptyStore : Store := { machineSets := [], templates := [] }

/-- The store a first pass in autoscaling mode (bounds min 1 / max 3) leaves
when it starts from the empty store. -/
def autoscaledStore : Store :=
  (reconcile quietEnv exampleCluster exampleInfra (examplePool none (some (bounds 1 3)))
    emptyStore).store

/-- The store a first pass in fixed-count mode (count 5) leaves when it starts
from the empty store. -/
def fixedStore : Store :=
  (reconcile quietEnv exampleCluster exampleInfra (examplePool (some 5) none) emptyStore).store

/-- The compute-group of the example pool as the external controller reports
`available` replicas for it: the stored object with that status. -/
def observedStore (store : Store) (available : Int) : Store :=
  { store with
    machineSets := store.machineSets.map fun ms =>
      { ms with Status := { AvailableReplicas := available } } }

/-- A store in which the compute-group of the example pool, stored by a pass
with declared count 3, is reported with 1 available replica. -/
def driftStore : Store :=
  observedStore
    (reconcile quietEnv exampleCluster exampleInfra (examplePool (some 3) none) emptyStore).store
    1

/-! ## The entry point `Reconcile`

`Reconcile` reads the node pool, its hosted cluster and the infrastructure
singleton from the API server, and writes the node pool back (`Update`, and the
patch helper at the end of a pass).  The node pools are part of the state; the
hosted cluster and the infrastructure are only read, so what these reads return
is part of the environment. -/

/-- Source constant `finalizer`. -/
def finalizer : GoString := str "hypershift.openshift.io/finalizer"

/-- Library `meta.FindStatusCondition` (apimachinery): the first condition of
the given type. -/
def FindStatusCondition (conditions : List metav1.Condition) (conditionType : GoString) :
    Option metav1.Condition :=
  match conditions with
  | [] => none
  | c :: rest => if c.Type_ = conditionType then some c else FindStatusCondition rest conditionType

/-- Library `controllerutil.ContainsFinalizer`. -/
def ContainsFinalizer (nodePool : hyperv1.NodePool) (f : GoString) : Bool :=
  nodePool.Finalizers.contains f

/-- Library `controllerutil.AddFinalizer`: append unless already there. -/
def AddFinalizer (nodePool : hyperv1.NodePool) (f : GoString) : hyperv1.NodePool :=
  if nodePool.Finalizers.contains f then nodePool
  else { nodePool with Finalizers := nodePool.Finalizers ++ [f] }

/-- Library `controllerutil.RemoveFinalizer`: drop every occurrence. -/
def RemoveFinalizer (nodePool : hyperv1.NodePool) (f : GoString) : hyperv1.NodePool :=
  { nodePool with Finalizers := nodePool.Finalizers.filter fun g => g ≠ f }

/-- Key of a node pool: `client.ObjectKeyFromObject`. -/
def hyperv1.NodePool.key (o : hyperv1.NodePool) : ObjectKey :=
  { Namespace := o.Namespace, Name := o.Name }

/-- The store after `Delete` of the object with key `key`. -/
def storeDelete {α : Type} (keyOf : α → ObjectKey) (key : ObjectKey) : List α → List α
  | [] => []
  | o :: rest =>
    if keyOf o = key then storeDelete keyOf key rest else o :: storeDelete keyOf key rest

/-- What `Delete` returns. -/
inductive DeleteResult where
  /-- The object was stored and is deleted: a nil error. -/
  | deleted
  /-- No object is stored under the key: an error for which `IsNotFound` holds. -/
  | notFound
  /-- Another error. -/
  | failed (e : Error)
  deriving DecidableEq

/-- The call `Delete(obj)` on the objects of one kind: the store after the call
and what the call returns. -/
def clientDelete {α : Type} (keyOf : α → ObjectKey) (deleteErr : Option GoString)
    (objs : List α) (obj : α) : List α × DeleteResult :=
  match deleteErr with
  | some e => (objs, .failed (.api e))
  | none =>
    match storeGet keyOf (keyOf obj) objs with
    | none => (objs, .notFound)
    | some _ => (storeDelete keyOf (keyOf obj) objs, .deleted)

/-- The state `Reconcile` works on: the stored node pools and the stored
compute-groups and compute-templates. -/
structure Cluster where
  nodePools : List hyperv1.NodePool
  store : Store
  deriving DecidableEq

/-- The environment of one call of `Reconcile`: the environment of the pass it
runs, the error, if any, of each further API call (for `Get` of the node pool
and `Delete` of the machine set an error other than NotFound), and the
infrastructure singleton. -/
structure ReconcileEnv where
  /-- The environment of `generateScalableResources` and `reconcile`. -/
  pass : Env
  /-- Get of the node pool. -/
  getNodePoolErr : Option GoString
  /-- Get of the hosted cluster in `GetHostedClusterByName`, NotFound included. -/
  getHostedClusterErr : Option GoString
  /-- Get of the infrastructure "cluster". -/
  getInfraErr : Option GoString
  /-- The infrastructure that Get returns. -/
  infra : configv1.Infrastructure
  /-- Delete of the machine set. -/
  deleteErr : Option GoString
  /-- Update of the node pool after a finalizer was added or removed. -/
  updateErr : Option GoString
  /-- The call `patch.NewHelper`. -/
  newHelperErr : Option GoString
  /-- The call `patchHelper.Patch`. -/
  patchErr : Option GoString
  deriving DecidableEq

/-- The deletion branch of source `Reconcile`: compile the resources to learn
the machine set, delete it, remove the finalizer. -/
def reconcileDelete (renv : ReconcileEnv) (infra : configv1.Infrastructure)
    (nodePool : hyperv1.NodePool) (targetNamespace : GoString) (cluster : Cluster) :
    Cluster × Outcome :=
  match generateScalableResources renv.pass infra.InfrastructureName infra.Region nodePool
      targetNamespace none with
  | .panic => (cluster, .panicked)
  | .err e =>
    (cluster, .returned ctrl.Result.zero
      (some (.wrap (str "failed to generate worker machineset") e)))
  | .ok (machineSet, _) =>
    match clientDelete capiv1.MachineSet.key renv.deleteErr cluster.store.machineSets
        machineSet with
    | (_, .failed e) =>
      (cluster, .returned ctrl.Result.zero (some (.wrap (str "failed to delete nodePool") e)))
    | (machineSets, _) =>
      let cluster := { cluster with store := { cluster.store with machineSets := machineSets } }
      if ContainsFinalizer nodePool finalizer then
        let nodePool := RemoveFinalizer nodePool finalizer
        match renv.updateErr with
        | some e =>
          (cluster, .returned ctrl.Result.zero
            (some (.wrap (str "failed to remove finalizer from nodePool") (.api e))))
        | none =>
          ({ cluster with
              nodePools := storeUpdate hyperv1.NodePool.key nodePool cluster.nodePools },
            .returned ctrl.Result.zero none)
      else (cluster, .returned ctrl.Result.zero none)

/-- The convergence branch of source `Reconcile`: ensure the finalizer, run
`reconcile`, patch the node pool. -/
def reconcileNormal (renv : ReconcileEnv) (hcluster : hyperv1.HostedCluster)
    (infra : configv1.Infrastructure) (nodePool : hyperv1.NodePool) (cluster : Cluster) :
    Cluster × Outcome :=
  -- Ensure the nodePool has a finalizer for cleanup
  let ensured : Except Error (hyperv1.NodePool × Cluster) :=
    if !ContainsFinalizer nodePool finalizer then
      let nodePool := AddFinalizer nodePool finalizer
      match renv.updateErr with
      | some e => .error (.wrap (str "failed to add finalizer to nodePool") (.api e))
      | none =>
        .ok (nodePool,
          { cluster with
            nodePools := storeUpdate hyperv1.NodePool.key nodePool cluster.nodePools })
    else .ok (nodePool, cluster)
  match ensured with
  | .error e => (cluster, .returned ctrl.Result.zero (some e))
  | .ok (nodePool, cluster) =>
    -- Initialize the patch helper
    match renv.newHelperErr with
    | some e => (cluster, .returned ctrl.Result.zero (some (.api e)))
    | none =>
      let passEnd := reconcile renv.pass hcluster infra nodePool cluster.store
      let cluster := { cluster with store := passEnd.store }
      match passEnd.outcome with
      | .panicked => (cluster, .panicked)
      | .returned result err =>
        match renv.patchErr with
        | some e =>
          (cluster, .returned ctrl.Result.zero
            (some (.wrap (str "failed to patch") (.api e))))
        | none =>
          ({ cluster with
              nodePools :=
                storeUpdate hyperv1.NodePool.key passEnd.nodePool cluster.nodePools },
            .returned result err)

/-- Source `NodePoolReconciler.Reconcile`.  `Get` of the hosted cluster is by
the node pool's namespace and cluster name, so the cluster it returns has that
name. -/
def Reconcile (renv : ReconcileEnv) (req : ObjectKey) (cluster : Cluster) : Cluster × Outcome :=
  -- Fetch the nodePool instance
  match renv.getNodePoolErr with
  | some e => (cluster, .returned ctrl.Result.zero (some (.api e)))
  | none =>
    match storeGet hyperv1.NodePool.key req cluster.nodePools with
    | none => (cluster, .returned ctrl.Result.zero none)
    | some nodePool =>
      match renv.getHostedClusterErr with
      | some e => (cluster, .returned ctrl.Result.zero (some (.api e)))
      | none =>
        let hcluster : hyperv1.HostedCluster := { Name := nodePool.Spec.ClusterName }
        match renv.getInfraErr with
        | some e =>
          (cluster, .returned ctrl.Result.zero
            (some (.wrap (str "failed to get cluster infra") (.api e))))
        | none =>
          let infra := renv.infra
          let targetNamespace := hcluster.Name
          if nodePool.DeletionTimestamp.isSome then
            reconcileDelete renv infra nodePool targetNamespace cluster
          else reconcileNormal renv hcluster infra nodePool cluster

/-! ## Example objects for the entry point -/

/-- The value a call returned, if it returned one. -/
def Call.value? {α : Type} (c : Call α) : Option α :=
  match c with
  | .ok a => some a
  | .err _ => none
  | .panic => none

/-- A compute-template stored under the key of the example pool, with an
instance type and an image other than the ones compiled for the pool. -/
def staleTemplate : capiaws.AWSMachineTemplate :=
  { Name := str "infra-x-c1-p1"
    Namespace := str "c1"
    Spec :=
      { UncompressedUserData := some true
        CloudInit :=
          { InsecureSkipSecretsManager := true, SecureSecretsBackend := str "secrets-manager" }
        IAMInstanceProfile := str "infra-x-worker-profile"
        InstanceType := str "m4.large"
        AMI := { ID := some (str "ami-0000"), ARN := none, Filters := [] }
        Subnet := none } }

/-- A store that holds the stale template and no compute-group. -/
def staleStore : Store := { machineSets := [], templates := [staleTemplate] }

/-- The example pool marked for deletion, with the finalizer. -/
def deletingPool (autoScaling : Option hyperv1.NodePoolAutoScaling) : hyperv1.NodePool :=
  { examplePool none autoScaling with DeletionTimestamp := some 1 }

/-- The key of the example pool. -/
def examplePoolKey : ObjectKey := { Namespace := str "clusters", Name := str "p1" }

/-- An environment of `Reconcile` in which no API call fails. -/
def quietReconcileEnv (pass : Env) : ReconcileEnv :=
  { pass := pass
    getNodePoolErr := none
    getHostedClusterErr := none
    getInfraErr := none
    infra := exampleInfra
    deleteErr := none
    updateErr := none
    newHelperErr := none
    patchErr := none }

/-- An environment of a pass in which no API call fails and the namespace
`openshift-machine-api` holds no machine set. -/
def noImageEnv : Env := { quietEnv with listItems := [] }

/-- A cluster that holds one node pool and no generated resource. -/
def clusterOf (nodePool : hyperv1.NodePool) : Cluster :=
  { nodePools := [nodePool], store := emptyStore }


/-! ## Lemmas on strings -/

theorem len_nonneg (s : GoString) : 0 ≤ len s := by
  unfold len; exact Int.ofNat_nonneg _

theorem len_append (a b : GoString) : len (a ++ b) = len a + len b := by
  simp [len]

theorem len_dash : len (str "-") = 1 := by rfl

theorem len_hash (s : GoString) : len (hash s) = 8 := by rfl

theorem len_sprintfDash (a b : GoString) : len (sprintfDash a b) = len a + 1 + len b := by
  simp only [sprintfDash, len_append, len_dash]

theorem len_sprintfDash3 (a b c : GoString) :
    len (sprintfDash3 a b c) = len a + 1 + len b + 1 + len c := by
  simp only [sprintfDash3, len_append, len_dash]

theorem slice_zero (s : GoString) (hi : Int) (h0 : 0 ≤ hi) (h1 : hi ≤ len s) :
    slice s 0 hi = some (truncate s hi) := by
  simp [slice, truncate, h0, h1]

theorem len_truncate (s : GoString) (n : Int) (h0 : 0 ≤ n) (h1 : n ≤ len s) :
    len (truncate s n) = n := by
  unfold truncate len at *
  rw [List.length_take]
  omega

theorem len_truncate_le (s : GoString) (n : Int) (h0 : 0 ≤ n) : len (truncate s n) ≤ n := by
  unfold truncate len
  rw [List.length_take]
  omega

theorem min_le_left (a b : Int) : min a b ≤ a := by
  unfold min; split <;> omega

theorem min_le_right (a b : Int) : min a b ≤ b := by
  unfold min; split <;> omega

theorem max_zero_nonneg (b : Int) : 0 ≤ max 0 b := by
  unfold max; split <;> omega

theorem max_zero_eq (b : Int) : ((max 0 b).toNat : Int) = max 0 b :=
  Int.toNat_of_nonneg (max_zero_nonneg b)

theorem truncate_min_len (s : GoString) (n : Int) :
    truncate s (min (len s) (max 0 n)) = truncate s n := by
  unfold truncate min max len
  by_cases hn : n > 0
  · simp only [hn, if_true]
    split
    · rfl
    · rw [List.take_of_length_le (by omega), List.take_of_length_le (by omega)]
  · simp only [hn, if_false]
    have : n.toNat = 0 := by omega
    rw [this]
    split
    · rfl
    · have h0 : s.length = 0 := by omega
      simp [h0]

theorem truncate_min_self (s : GoString) (n : Int) :
    truncate s (min n (len s)) = truncate s n := by
  unfold truncate min len
  split
  · rw [List.take_of_length_le (by omega), List.take_of_length_le (by omega)]
  · rfl

/-- Whenever the joined name is too long, `getName` returns (it does not abort
on a slice) and what it returns is the two-tier shortening. -/
theorem getName_long (base suffix : GoString) (maxLength : Int) (h0 : 0 < maxLength)
    (hl : maxLength < len (sprintfDash base suffix)) :
    getName base suffix maxLength = some (specShorten base suffix maxLength) := by
  have hb := len_nonneg base
  have hs := len_nonneg suffix
  rw [len_sprintfDash] at hl
  unfold getName specShorten
  rw [if_neg (by omega)]
  simp only []
  rw [if_neg (by rw [len_sprintfDash]; omega)]
  by_cases hbl : maxLength - 10 - len suffix < 0
  · rw [if_pos hbl, if_neg (by omega)]
    rw [slice_zero base _ (by unfold min; split <;> [exact max_zero_nonneg _; exact hb])
      (min_le_left _ _)]
    simp only []
    rw [truncate_min_len]
    have hn : 0 ≤ len (sprintfDash (truncate base (maxLength - 9))
        (hash (sprintfDash base suffix))) := len_nonneg _
    rw [slice_zero _ _ (by unfold min; split <;> omega) (min_le_right _ _)]
    rw [truncate_min_self]
    rfl
  · rw [if_neg hbl, if_pos (by omega)]
    rw [slice_zero base _ (by omega) (by omega)]
    simp only [sprintfDash3]

theorem len_specShorten_le (base suffix : GoString) (maxLength : Int) (h0 : 0 < maxLength)
    (hl : maxLength < len (sprintfDash base suffix)) :
    len (specShorten base suffix maxLength) ≤ maxLength := by
  have hb := len_nonneg base
  have hs := len_nonneg suffix
  rw [len_sprintfDash] at hl
  unfold specShorten
  simp only []
  split
  · rename_i hbud
    simp only [len_append, len_dash, len_hash]
    rw [len_truncate base _ hbud (by omega)]
    omega
  · exact len_truncate_le _ _ (by omega)

theorem getName_short (base suffix : GoString) (maxLength : Int) (h0 : 0 < maxLength)
    (hl : len base + 1 + len suffix ≤ maxLength) :
    getName base suffix maxLength = some (base ++ str "-" ++ suffix) := by
  unfold getName
  rw [if_neg (by omega)]
  simp only []
  rw [if_pos (by rw [len_sprintfDash]; exact hl)]
  rfl

theorem getName_bounded (base suffix : GoString) (maxLength : Int) (h : 0 ≤ maxLength) :
    ∃ r, getName base suffix maxLength = some r ∧ len r ≤ maxLength := by
  by_cases h0 : maxLength = 0
  · subst h0
    exact ⟨[], by simp [getName], by decide⟩
  · by_cases hl : len base + 1 + len suffix ≤ maxLength
    · refine ⟨_, getName_short base suffix maxLength (by omega) hl, ?_⟩
      simp only [len_append, len_dash]
      exact hl
    · have hl2 : maxLength < len (sprintfDash base suffix) := by
        rw [len_sprintfDash]; omega
      exact ⟨_, getName_long base suffix maxLength (by omega) hl2,
        len_specShorten_le base suffix maxLength (by omega) hl2⟩

/-! ## Naming: the claims -/

theorem hexDigit_hex (d : Nat) (h : d < 16) :
    (48 ≤ (hexDigit d).toNat ∧ (hexDigit d).toNat ≤ 57) ∨
    (97 ≤ (hexDigit d).toNat ∧ (hexDigit d).toNat ≤ 102) := by
  interval_cases d <;> decide

/-- Every byte of `hash s` is one of `0`..`9`, `a`..`f`. -/
theorem hash_hex (s : GoString) (c : UInt8) (hc : c ∈ hash s) :
    (48 ≤ c.toNat ∧ c.toNat ≤ 57) ∨ (97 ≤ c.toNat ∧ c.toNat ≤ 102) := by
  unfold hash hex8 at hc
  simp only [List.mem_cons, List.mem_singleton, List.not_mem_nil, or_false] at hc
  rcases hc with h | h | h | h | h | h | h | h <;> subst h <;>
    exact hexDigit_hex _ (Nat.mod_lt _ (by decide))

/-- C1: for every base, suffix and non-negative maxLength, getName returns a
name of length at most maxLength, and generateMachineSetName returns a name of
at most 43 characters. -/
theorem getName_length_le_maxLength (base suffix : GoString) (maxLength : Int)
    (h : 0 ≤ maxLength) (infraName clusterName poolName : GoString) :
    (∃ r, getName base suffix maxLength = some r ∧ len r ≤ maxLength) ∧
    (∃ r, generateMachineSetName infraName clusterName poolName = some r ∧ len r ≤ 43) :=
  ⟨getName_bounded base suffix maxLength h,
   getName_bounded (sprintfDash infraName clusterName) poolName 43 (by decide)⟩

/-- C1 at base "myinfra-mycluster", suffix "workers", maxLength 20: the name
has at most 20 characters. -/
theorem getName_length_le_maxLength_witness :
    (0 : Int) ≤ 20 ∧
    (∃ r, getName (str "myinfra-mycluster") (str "workers") 20 = some r ∧ len r ≤ 20) ∧
    (∃ r, generateMachineSetName (str "myinfra") (str "mycluster") (str "workers") = some r ∧
      len r ≤ 43) :=
  ⟨by decide,
   getName_length_le_maxLength (str "myinfra-mycluster") (str "workers") 20 (by decide)
     (str "myinfra") (str "mycluster") (str "workers")⟩

/-- C2: when base + "-" + suffix is longer than maxLength > 0, getName returns
the two-tier shortening: with budget = maxLength - 10 - len(suffix), a
non-negative budget gives the first budget characters of base, "-", the hash of
base, "-", suffix; a negative budget gives the first maxLength characters of
(base cut to maxLength - 9 characters) + "-" + the hash of the full string
base + "-" + suffix.  The hash is eight hexadecimal characters. -/
theorem getName_two_tier (base suffix : GoString) (maxLength : Int) (h0 : 0 < maxLength)
    (hl : maxLength < len (base ++ str "-" ++ suffix)) :
    getName base suffix maxLength =
      some (if 0 ≤ maxLength - 10 - len suffix then
          truncate base (maxLength - 10 - len suffix) ++ str "-" ++ hash base ++ str "-" ++ suffix
        else
          truncate (truncate base (maxLength - 9) ++ str "-" ++ hash (base ++ str "-" ++ suffix))
            maxLength) ∧
    (∀ s : GoString, len (hash s) = 8 ∧
      ∀ c ∈ hash s, (48 ≤ c.toNat ∧ c.toNat ≤ 57) ∨ (97 ≤ c.toNat ∧ c.toNat ≤ 102)) :=
  ⟨getName_long base suffix maxLength h0 hl, fun s => ⟨len_hash s, hash_hex s⟩⟩

/-- C2 at "myinfra-mycluster" / "workers" / 20 (budget 3) and at
"myinfra-mycluster" / "a-very-long-pool-name" / 12 (negative budget). -/
theorem getName_two_tier_witness :
    (getName (str "myinfra-mycluster") (str "workers") 20 = some (str "myi-89c9b4de-workers")) ∧
    (getName (str "myinfra-mycluster") (str "a-very-long-pool-name") 12 =
      some (str "myi-8202b097")) :=
  ⟨(getName_two_tier (str "myinfra-mycluster") (str "workers") 20
      (by decide) (by decide)).1.trans (by decide),
   (getName_two_tier (str "myinfra-mycluster") (str "a-very-long-pool-name") 12
      (by decide) (by decide)).1.trans (by decide)⟩

/-- C3: when len(base) + 1 + len(suffix) is at most maxLength > 0, getName
returns base + "-" + suffix unchanged; and when infra-cluster-pool has at most
43 characters, generateMachineSetName returns exactly that joined form. -/
theorem getName_short_unchanged (base suffix : GoString) (maxLength : Int) (h0 : 0 < maxLength)
    (hl : len base + 1 + len suffix ≤ maxLength) (infraName clusterName poolName : GoString)
    (hj : len (infraName ++ str "-" ++ clusterName ++ str "-" ++ poolName) ≤ 43) :
    getName base suffix maxLength = some (base ++ str "-" ++ suffix) ∧
    generateMachineSetName infraName clusterName poolName =
      some (infraName ++ str "-" ++ clusterName ++ str "-" ++ poolName) :=
  ⟨getName_short base suffix maxLength h0 hl,
   getName_short (sprintfDash infraName clusterName) poolName 43 (by decide)
     (by simp only [sprintfDash, len_append, len_dash] at hj ⊢; omega)⟩

/-- C3 at infrastructure "infra-x", cluster "c1", pool "p1": the name is
"infra-x-c1-p1". -/
theorem getName_short_unchanged_witness :
    getName (str "infra-x-c1") (str "p1") 43 = some (str "infra-x-c1-p1") ∧
    generateMachineSetName (str "infra-x") (str "c1") (str "p1") = some (str "infra-x-c1-p1") :=
  getName_short_unchanged (str "infra-x-c1") (str "p1") 43 (by decide) (by decide)
    (str "infra-x") (str "c1") (str "p1") (by decide)

/-! ## Lemmas on maps and on the store -/

theorem mapLookup_mapDelete_self (k : GoString) (es : Entries) :
    mapLookup k (mapDelete k es) = none := by
  induction es with
  | nil => rfl
  | cons e rest ih =>
    obtain ⟨k1, v1⟩ := e
    by_cases h : k1 = k
    · simp only [mapDelete, h, if_true]
      exact ih
    · simp only [mapDelete, h, if_false, mapLookup]
      exact ih

theorem mapLookup_mapDelete_of_ne (k j : GoString) (h : j ≠ k) (es : Entries) :
    mapLookup k (mapDelete j es) = mapLookup k es := by
  induction es with
  | nil => rfl
  | cons e rest ih =>
    obtain ⟨k1, v1⟩ := e
    by_cases h1 : k1 = j
    · have h2 : k1 ≠ k := by rw [h1]; exact h
      simp only [mapDelete, h1, if_true, mapLookup]
      rw [if_neg (by rw [← h1]; exact h2)]
      exact ih
    · simp only [mapDelete, h1, if_false, mapLookup]
      rw [ih]

theorem mapDelete_of_lookup_none (k : GoString) (es : Entries) (h : mapLookup k es = none) :
    mapDelete k es = es := by
  induction es with
  | nil => rfl
  | cons e rest ih =>
    obtain ⟨k1, v1⟩ := e
    by_cases h1 : k1 = k
    · simp [mapLookup, h1] at h
    · simp only [mapLookup, h1, if_false] at h
      simp only [mapDelete, h1, if_false]
      rw [ih h]

theorem mapLookup_mapSet_self (k v : GoString) (es : Entries) :
    mapLookup k (mapSet k v es) = some v := by
  induction es with
  | nil => simp [mapSet, mapLookup]
  | cons e rest ih =>
    obtain ⟨k1, v1⟩ := e
    by_cases h1 : k1 = k
    · simp [mapSet, mapLookup, h1]
    · simp only [mapSet, h1, if_false, mapLookup]
      exact ih

theorem mapLookup_mapSet_of_ne (k j v : GoString) (h : j ≠ k) (es : Entries) :
    mapLookup k (mapSet j v es) = mapLookup k es := by
  induction es with
  | nil => simp [mapSet, mapLookup, h]
  | cons e rest ih =>
    obtain ⟨k1, v1⟩ := e
    by_cases h1 : k1 = j
    · have h2 : k1 ≠ k := by rw [h1]; exact h
      simp [mapSet, mapLookup, h1, h, h2]
    · simp only [mapSet, h1, if_false, mapLookup]
      rw [ih]

theorem mapSet_of_lookup (k v : GoString) (es : Entries) (h : mapLookup k es = some v) :
    mapSet k v es = es := by
  induction es with
  | nil => simp [mapLookup] at h
  | cons e rest ih =>
    obtain ⟨k1, v1⟩ := e
    by_cases h1 : k1 = k
    · simp only [mapLookup, h1, if_true, Option.some.injEq] at h
      simp [mapSet, h1, h]
    · simp only [mapLookup, h1, if_false] at h
      simp only [mapSet, h1, if_false]
      rw [ih h]

theorem autoscaler_annotations_ne : autoscalerMinAnnotation ≠ autoscalerMaxAnnotation := by
  decide

theorem storeGet_key {α : Type} (keyOf : α → ObjectKey) (key : ObjectKey) (objs : List α)
    (o : α) (h : storeGet keyOf key objs = some o) : keyOf o = key := by
  induction objs with
  | nil => simp [storeGet] at h
  | cons x rest ih =>
    by_cases hx : keyOf x = key
    · simp only [storeGet, hx, if_true, Option.some.injEq] at h
      rw [← h]; exact hx
    · simp only [storeGet, hx, if_false] at h
      exact ih h

theorem storeGet_create {α : Type} (keyOf : α → ObjectKey) (key : ObjectKey) (objs : List α)
    (o : α) (h : storeGet keyOf key objs = none) (hk : keyOf o = key) :
    storeGet keyOf key (storeCreate objs o) = some o := by
  induction objs with
  | nil => simp [storeCreate, storeGet, hk]
  | cons x rest ih =>
    by_cases hx : keyOf x = key
    · simp [storeGet, hx] at h
    · simp only [storeGet, hx, if_false] at h
      simp only [storeCreate, List.cons_append, storeGet, hx, if_false]
      exact ih h

theorem storeGet_update {α : Type} (keyOf : α → ObjectKey) (key : ObjectKey) (objs : List α)
    (o x : α) (h : storeGet keyOf key objs = some x) (hk : keyOf o = key) :
    storeGet keyOf key (storeUpdate keyOf o objs) = some o := by
  induction objs with
  | nil => simp [storeGet] at h
  | cons y rest ih =>
    by_cases hy : keyOf y = key
    · simp [storeUpdate, storeGet, hy, hk]
    · simp only [storeGet, hy, if_false] at h
      simp only [storeUpdate, hk, hy, if_false, storeGet]
      exact ih h

/-- What a `CreateOrUpdate` that returns an object has done: the object is the
mutate function applied to the object passed in (nothing was stored under the
key, and it is created) or to the stored object (which it replaces unless the
two are equal); in each case it is what the store then holds under the key. -/
theorem CreateOrUpdate_ok {α : Type} [DecidableEq α] (keyOf : α → ObjectKey)
    (getErr writeErr : Option GoString) (objs objs1 : List α) (obj m : α) (f : α → Call α)
    (h : CreateOrUpdate keyOf getErr writeErr objs obj f = (objs1, .ok m)) :
    storeGet keyOf (keyOf obj) objs1 = some m ∧
    ((storeGet keyOf (keyOf obj) objs = none ∧ f obj = .ok m) ∨
     (∃ existing, storeGet keyOf (keyOf obj) objs = some existing ∧ f existing = .ok m)) := by
  unfold CreateOrUpdate at h
  simp only [] at h
  cases getErr with
  | some e => simp at h
  | none =>
    simp only [] at h
    cases hg : storeGet keyOf (keyOf obj) objs with
    | none =>
      rw [hg] at h
      simp only [] at h
      cases hf : f obj with
      | err e => rw [hf] at h; simp at h
      | panic => rw [hf] at h; simp at h
      | ok mutated =>
        rw [hf] at h
        simp only [] at h
        by_cases hk : keyOf mutated = keyOf obj
        · rw [if_neg (by simpa using hk)] at h
          cases writeErr with
          | some e => simp at h
          | none =>
            simp only [Prod.mk.injEq, Call.ok.injEq] at h
            obtain ⟨h1, h2⟩ := h
            subst h1; subst h2
            exact ⟨storeGet_create keyOf _ objs mutated hg hk, Or.inl ⟨rfl, rfl⟩⟩
        · rw [if_pos (by simpa using hk)] at h
          simp at h
    | some existing =>
      rw [hg] at h
      simp only [] at h
      cases hf : f existing with
      | err e => rw [hf] at h; simp at h
      | panic => rw [hf] at h; simp at h
      | ok mutated =>
        rw [hf] at h
        simp only [] at h
        by_cases hk : keyOf mutated = keyOf obj
        · rw [if_neg (by simpa using hk)] at h
          by_cases he : existing = mutated
          · rw [if_pos he] at h
            simp only [Prod.mk.injEq, Call.ok.injEq] at h
            obtain ⟨h1, h2⟩ := h
            subst h1; subst h2
            refine ⟨?_, Or.inr ⟨existing, rfl, hf⟩⟩
            rw [hg, he]
          · rw [if_neg he] at h
            cases writeErr with
            | some e => simp at h
            | none =>
              simp only [Prod.mk.injEq, Call.ok.injEq] at h
              obtain ⟨h1, h2⟩ := h
              subst h1; subst h2
              exact ⟨storeGet_update keyOf _ objs mutated existing hg hk,
                Or.inr ⟨existing, rfl, hf⟩⟩
        · rw [if_pos (by simpa using hk)] at h
          simp at h

/-- A `CreateOrUpdate` whose mutate function leaves the stored object as it is
writes nothing. -/
theorem CreateOrUpdate_fixed {α : Type} [DecidableEq α] (keyOf : α → ObjectKey)
    (getErr writeErr : Option GoString) (objs : List α) (obj existing : α) (f : α → Call α)
    (hg : storeGet keyOf (keyOf obj) objs = some existing) (hf : f existing = .ok existing) :
    (CreateOrUpdate keyOf getErr writeErr objs obj f).1 = objs := by
  unfold CreateOrUpdate
  simp only []
  cases getErr with
  | some e => rfl
  | none =>
    simp only [hg, hf]
    have hk := storeGet_key keyOf _ objs existing hg
    rw [if_neg (by simpa using hk)]
    simp

/-! ## Validation and mode resolution: the claims -/

/-- C4: for a node pool with a non-nil autoscaling section,
validateAutoscalingParameters succeeds if and only if max and min are both
non-nil, max is at least min, and max and min are not both zero. -/
theorem validateAutoscalingParameters_ok_iff (nodePool : hyperv1.NodePool)
    (a : hyperv1.NodePoolAutoScaling) (h : nodePool.Spec.AutoScaling = some a) :
    validateAutoscalingParameters nodePool = .ok () ↔
      ∃ max min, a.Max = some max ∧ a.Min = some min ∧ max ≥ min ∧ ¬ (max = 0 ∧ min = 0) := by
  unfold validateAutoscalingParameters
  rw [h]
  obtain ⟨mn, mx⟩ := a
  cases mx with
  | none => simp
  | some max =>
    cases mn with
    | none => simp
    | some min =>
      simp only [Option.some.injEq]
      constructor
      · intro hv
        by_cases h1 : max < min
        · simp [h1] at hv
        · by_cases h2 : max = 0 ∧ min = 0
          · simp [h2] at hv
          · exact ⟨max, min, rfl, rfl, by omega, h2⟩
      · rintro ⟨max1, min1, h1, h2, h3, h4⟩
        subst h1; subst h2
        rw [if_neg (by omega), if_neg h4]

/-- C4 at bounds max 3 / min 5 (fails), max 0 / min 0 (fails) and
max 5 / min 0 (succeeds). -/
theorem validateAutoscalingParameters_ok_iff_witness :
    validateAutoscalingParameters (examplePool none (some (bounds 5 3))) ≠ .ok () ∧
    validateAutoscalingParameters (examplePool none (some (bounds 0 0))) ≠ .ok () ∧
    validateAutoscalingParameters (examplePool none (some (bounds 0 5))) = .ok () :=
  ⟨fun hv => by
      have h := (validateAutoscalingParameters_ok_iff (examplePool none (some (bounds 5 3)))
        (bounds 5 3) rfl).1 hv
      obtain ⟨max, min, h1, h2, h3, _⟩ := h
      simp only [bounds, Option.some.injEq] at h1 h2
      omega,
   fun hv => by
      have h := (validateAutoscalingParameters_ok_iff (examplePool none (some (bounds 0 0)))
        (bounds 0 0) rfl).1 hv
      obtain ⟨max, min, h1, h2, _, h4⟩ := h
      simp only [bounds, Option.some.injEq] at h1 h2
      exact h4 ⟨h1.symm, h2.symm⟩,
   (validateAutoscalingParameters_ok_iff (examplePool none (some (bounds 0 5)))
      (bounds 0 5) rfl).2 ⟨5, 0, rfl, rfl, by decide, by decide⟩⟩

/-- C5, as stated, fails: the pool "p1" with fixed count 2 and bounds
max 3 / min 5 has a non-nil autoscaling section, its pass stops at mode
resolution with a validation error, and the fixed count is still 2. -/
theorem invalid_bounds_keep_nodeCount :
    (examplePool (some 2) (some (bounds 5 3))).Spec.AutoScaling ≠ none ∧
    (reconcileMode quietEnv exampleKey (examplePool (some 2) (some (bounds 5 3)))
      emptyStore).1.Spec.NodeCount = some 2 ∧
    (reconcile quietEnv exampleCluster exampleInfra (examplePool (some 2) (some (bounds 5 3)))
      emptyStore).nodePool.Spec.NodeCount = some 2 ∧
    (reconcile quietEnv exampleCluster exampleInfra (examplePool (some 2) (some (bounds 5 3)))
      emptyStore).outcome =
      .returned ctrl.Result.zero
        (some (.wrap (str "error validating autoscaling parameters") (.maxLessThanMin 3 5))) := by
  refine ⟨by decide, by decide, by decide, by decide⟩

/-- C5, amended: for a node pool with a non-nil autoscaling section, when the
bounds pass validation the fixed node count is nil after mode resolution,
whether the lookup of the current machine set finds it, finds nothing or
fails; when the bounds fail validation the pass stops there with an error and
the fixed node count is as declared. -/
theorem reconcileMode_nodeCount (env : Env) (key : ObjectKey) (nodePool : hyperv1.NodePool)
    (store : Store) (h : nodePool.Spec.AutoScaling ≠ none) :
    (validateAutoscalingParameters nodePool = .ok () →
      (reconcileMode env key nodePool store).1.Spec.NodeCount = none) ∧
    (∀ e, validateAutoscalingParameters nodePool = .err e →
      (reconcileMode env key nodePool store).1.Spec.NodeCount = nodePool.Spec.NodeCount ∧
      (reconcileMode env key nodePool store).2 =
        .stop (.returned ctrl.Result.zero
          (some (.wrap (str "error validating autoscaling parameters") e)))) := by
  have hauto : isAutoscalingEnabled nodePool = true := by
    unfold isAutoscalingEnabled
    cases hq : nodePool.Spec.AutoScaling with
    | none => exact absurd hq h
    | some a => rfl
  constructor
  · intro hv
    unfold reconcileMode
    simp only [hauto, hv, if_true]
    cases env.getMachineSetErr with
    | some e => rfl
    | none =>
      simp only []
      cases storeGet capiv1.MachineSet.key key store.machineSets <;> rfl
  · intro e hv
    unfold reconcileMode
    simp only [hauto, hv, if_true]
    refine ⟨?_, ?_⟩ <;> first | rfl | trivial

/-- C5, amended, at the pool "p1" with fixed count 2 and bounds min 1 / max 3. -/
theorem reconcileMode_nodeCount_witness :
    (reconcileMode quietEnv exampleKey (examplePool (some 2) (some (bounds 1 3)))
      emptyStore).1.Spec.NodeCount = none :=
  (reconcileMode_nodeCount quietEnv exampleKey (examplePool (some 2) (some (bounds 1 3)))
    emptyStore (by decide)).1 (by decide)

/-! ## Lemmas on the stages of a pass -/

/-- What a successful compilation returns: both objects carry the generated
name and the target namespace, the machine set carries the replica count
passed in and a non-nil annotation map, which for a pool without autoscaling
section has no autoscaler entries. -/
theorem generateScalableResources_ok (env : Env) (infraName region : GoString)
    (nodePool : hyperv1.NodePool) (targetNamespace : GoString) (replicas : Option Int)
    (ms : capiv1.MachineSet) (tmpl : capiaws.AWSMachineTemplate)
    (h : generateScalableResources env infraName region nodePool targetNamespace replicas =
      .ok (ms, tmpl)) :
    ∃ name, generateMachineSetName infraName nodePool.Spec.ClusterName nodePool.Name = some name ∧
      ms.key = { Namespace := targetNamespace, Name := name } ∧
      tmpl.key = { Namespace := targetNamespace, Name := name } ∧
      ms.Spec.Replicas = replicas ∧
      (∃ es, ms.Annotations = some es) ∧
      (nodePool.Spec.AutoScaling = none →
        ms.Annotations.lookup autoscalerMinAnnotation = none ∧
        ms.Annotations.lookup autoscalerMaxAnnotation = none) := by
  unfold generateScalableResources at h
  cases hl : env.listErr with
  | some e => rw [hl] at h; simp at h
  | none =>
    rw [hl] at h
    simp only [] at h
    cases hi : env.listItems with
    | nil => rw [hi] at h; simp at h
    | cons item rest =>
      rw [hi] at h
      cases item with
      | absent => simp at h
      | malformed => simp at h
      | found AMI =>
        simp only [] at h
        cases hn : generateMachineSetName infraName nodePool.Spec.ClusterName nodePool.Name with
        | none => rw [hn] at h; simp at h
        | some name =>
          rw [hn] at h
          simp only [] at h
          refine ⟨name, rfl, ?_⟩
          split at h
          · simp at h
          · simp at h
          · rename_i annotations hann
            simp only [Call.ok.injEq, Prod.mk.injEq] at h
            obtain ⟨h1, h2⟩ := h
            subst h1; subst h2
            refine ⟨rfl, rfl, rfl, ⟨annotations, rfl⟩, ?_⟩
            intro hnone
            have hauto : isAutoscalingEnabled nodePool = false := by
              unfold isAutoscalingEnabled; rw [hnone]; rfl
            rw [hauto] at hann
            simp only [Bool.false_eq_true, if_false, Call.ok.injEq] at hann
            subst hann
            exact ⟨rfl, rfl⟩

/-- What mode resolution leaves when the pass goes on: the node pool keeps its
name, namespace, cluster name, platform and autoscaling sections; without
autoscaling it is untouched and the wanted count is the fixed count or 0; with
autoscaling the fixed count is reset, and the wanted count is 1 when no machine
set is stored under the key. -/
theorem reconcileMode_proceed (env : Env) (key : ObjectKey) (nodePool np1 : hyperv1.NodePool)
    (store : Store) (wanted : Int)
    (h : reconcileMode env key nodePool store = (np1, .proceed wanted)) :
    np1.Name = nodePool.Name ∧ np1.Namespace = nodePool.Namespace ∧
    np1.Spec.ClusterName = nodePool.Spec.ClusterName ∧
    np1.Spec.AutoScaling = nodePool.Spec.AutoScaling ∧
    np1.Spec.AWS = nodePool.Spec.AWS ∧
    (nodePool.Spec.AutoScaling = none →
      np1 = nodePool ∧ wanted = Int32PtrDerefOr nodePool.Spec.NodeCount 0) ∧
    (nodePool.Spec.AutoScaling ≠ none →
      validateAutoscalingParameters nodePool = .ok () ∧ np1.Spec.NodeCount = none ∧
      (storeGet capiv1.MachineSet.key key store.machineSets = none → wanted = 1)) := by
  unfold reconcileMode at h
  cases ha : nodePool.Spec.AutoScaling with
  | none =>
    have hauto : isAutoscalingEnabled nodePool = false := by
      unfold isAutoscalingEnabled; rw [ha]; rfl
    simp only [hauto, Bool.false_eq_true, if_false, Prod.mk.injEq, ModeStep.proceed.injEq] at h
    obtain ⟨h1, h2⟩ := h
    subst h1
    exact ⟨rfl, rfl, rfl, ha.symm ▸ rfl, rfl, fun _ => ⟨rfl, h2.symm⟩,
      fun hne => absurd rfl hne⟩
  | some a =>
    have hauto : isAutoscalingEnabled nodePool = true := by
      unfold isAutoscalingEnabled; rw [ha]; rfl
    simp only [hauto, if_true] at h
    cases hv : validateAutoscalingParameters nodePool with
    | panic => rw [hv] at h; simp at h
    | err e => rw [hv] at h; simp at h
    | ok u =>
      rw [hv] at h
      simp only [] at h
      cases hg : env.getMachineSetErr with
      | some e => rw [hg] at h; simp at h
      | none =>
        rw [hg] at h
        simp only [] at h
        cases hs : storeGet capiv1.MachineSet.key key store.machineSets with
        | none =>
          rw [hs] at h
          simp only [Prod.mk.injEq, ModeStep.proceed.injEq] at h
          obtain ⟨h1, h2⟩ := h
          subst h1
          exact ⟨rfl, rfl, rfl, ha, rfl, fun hq => by simp at hq,
            fun _ => ⟨rfl, rfl, fun _ => h2.symm⟩⟩
        | some ms0 =>
          rw [hs] at h
          simp only [Prod.mk.injEq, ModeStep.proceed.injEq] at h
          obtain ⟨h1, h2⟩ := h
          subst h1
          exact ⟨rfl, rfl, rfl, ha, rfl, fun hq => by simp at hq,
            fun _ => ⟨rfl, rfl, fun hq => by simp at hq⟩⟩

/-- The mutate function without autoscaling: the replica count becomes the
fixed count of the node pool and both autoscaler annotations are deleted. -/
theorem mutateMachineSet_fixed (nodePool : hyperv1.NodePool) (b m : capiv1.MachineSet)
    (h : mutateMachineSet false nodePool b = .ok m) :
    m = { b with
      Spec.Replicas := nodePool.Spec.NodeCount
      Annotations := (b.Annotations.delete autoscalerMinAnnotation).delete
        autoscalerMaxAnnotation } := by
  unfold mutateMachineSet at h
  simp only [Bool.not_false, if_true, Bool.false_eq_true, if_false, Call.ok.injEq] at h
  exact h.symm

/-- The mutate function with autoscaling: only the annotations change, and
afterwards they hold the printed bounds. -/
theorem mutateMachineSet_auto (nodePool : hyperv1.NodePool) (b m : capiv1.MachineSet)
    (h : mutateMachineSet true nodePool b = .ok m) :
    ∃ a max min es, nodePool.Spec.AutoScaling = some a ∧ a.Max = some max ∧ a.Min = some min ∧
      b.Annotations = some es ∧
      m = { b with Annotations := some (mapSet autoscalerMinAnnotation (Itoa min)
        (mapSet autoscalerMaxAnnotation (Itoa max) es)) } := by
  unfold mutateMachineSet at h
  simp only [Bool.not_true, Bool.false_eq_true, if_false, if_true] at h
  cases ha : nodePool.Spec.AutoScaling with
  | none => rw [ha] at h; simp at h
  | some a =>
    rw [ha] at h
    simp only [] at h
    cases hmax : a.Max with
    | none => rw [hmax] at h; simp at h
    | some max =>
      rw [hmax] at h
      simp only [] at h
      cases hes : b.Annotations with
      | none => rw [hes] at h; simp [GoMap.assign] at h
      | some es =>
        rw [hes] at h
        simp only [GoMap.assign] at h
        cases hmin : a.Min with
        | none => rw [hmin] at h; simp at h
        | some min =>
          rw [hmin] at h
          simp only [Call.ok.injEq] at h
          exact ⟨a, max, min, es, rfl, hmax, hmin, rfl, h.symm⟩

/-- What a successful upsert leaves: a template is stored under the key of the
compiled template (the stored one when there was one, else the compiled one)
and the machine set returned is stored under the key of the compiled machine
set; it is the mutate function applied to the compiled machine set when none
was stored, and to the stored one otherwise. -/
theorem reconcileUpsert_ok (env : Env) (isAuto : Bool) (nodePool : hyperv1.NodePool)
    (wms ms : capiv1.MachineSet) (tmpl : capiaws.AWSMachineTemplate) (store store1 : Store)
    (h : reconcileUpsert env isAuto nodePool wms tmpl store = (store1, .ok ms)) :
    (∃ t, storeGet capiaws.AWSMachineTemplate.key tmpl.key store1.templates = some t ∧
      ((storeGet capiaws.AWSMachineTemplate.key tmpl.key store.templates = none ∧ t = tmpl) ∨
        storeGet capiaws.AWSMachineTemplate.key tmpl.key store.templates = some t)) ∧
    storeGet capiv1.MachineSet.key wms.key store1.machineSets = some ms ∧
    ((storeGet capiv1.MachineSet.key wms.key store.machineSets = none ∧
        mutateMachineSet isAuto nodePool wms = .ok ms) ∨
      (∃ existing, storeGet capiv1.MachineSet.key wms.key store.machineSets = some existing ∧
        mutateMachineSet isAuto nodePool existing = .ok ms)) := by
  unfold reconcileUpsert at h
  cases ht : CreateOrUpdate capiaws.AWSMachineTemplate.key env.templateGetErr
      env.templateWriteErr store.templates tmpl (fun t => Call.ok t) with
  | mk templates r =>
    rw [ht] at h
    cases r with
    | err e => simp at h
    | panic => simp at h
    | ok t =>
      simp only [] at h
      cases hm : CreateOrUpdate capiv1.MachineSet.key env.machineSetGetErr
          env.machineSetWriteErr store.machineSets wms (mutateMachineSet isAuto nodePool) with
      | mk machineSets r2 =>
        rw [hm] at h
        simp only [Prod.mk.injEq] at h
        obtain ⟨h1, h2⟩ := h
        subst h1; subst h2
        have kt := CreateOrUpdate_ok _ _ _ _ _ _ _ _ ht
        have km := CreateOrUpdate_ok _ _ _ _ _ _ _ _ hm
        refine ⟨⟨t, kt.1, ?_⟩, km.1, km.2⟩
        rcases kt.2 with ⟨h3, h4⟩ | ⟨existing, h3, h4⟩
        · simp only [Call.ok.injEq] at h4
          exact Or.inl ⟨h3, h4.symm⟩
        · simp only [Call.ok.injEq] at h4
          subst h4
          exact Or.inr h3

/-- An upsert writes nothing when a template is stored under the key of the
compiled template and the machine set stored under the key of the compiled
machine set is left as it is by the mutate function. -/
theorem reconcileUpsert_fixed (env : Env) (isAuto : Bool) (nodePool : hyperv1.NodePool)
    (wms ms : capiv1.MachineSet) (tmpl t : capiaws.AWSMachineTemplate) (store : Store)
    (ht : storeGet capiaws.AWSMachineTemplate.key tmpl.key store.templates = some t)
    (hm : storeGet capiv1.MachineSet.key wms.key store.machineSets = some ms)
    (hf : mutateMachineSet isAuto nodePool ms = .ok ms) :
    (reconcileUpsert env isAuto nodePool wms tmpl store).1 = store := by
  have h1 := CreateOrUpdate_fixed capiaws.AWSMachineTemplate.key env.templateGetErr
    env.templateWriteErr store.templates tmpl t (fun t => Call.ok t) ht rfl
  have h2 := CreateOrUpdate_fixed capiv1.MachineSet.key env.machineSetGetErr
    env.machineSetWriteErr store.machineSets wms ms (mutateMachineSet isAuto nodePool) hm hf
  unfold reconcileUpsert
  cases hc : CreateOrUpdate capiaws.AWSMachineTemplate.key env.templateGetErr
      env.templateWriteErr store.templates tmpl (fun t => Call.ok t) with
  | mk templates r =>
    rw [hc] at h1
    simp only [] at h1
    subst h1
    cases r with
    | err e => rfl
    | panic => rfl
    | ok t1 =>
      simp only []
      cases hd : CreateOrUpdate capiv1.MachineSet.key env.machineSetGetErr
          env.machineSetWriteErr store.machineSets wms (mutateMachineSet isAuto nodePool) with
      | mk machineSets r2 =>
        rw [hd] at h2
        simp only [] at h2
        subst h2
        rfl

/-- The store at the end of a pass is the store at its start, unless the pass
reached the upsert, and then it is the store the upsert left. -/
theorem reconcile_store (env : Env) (hcluster : hyperv1.HostedCluster)
    (infra : configv1.Infrastructure) (nodePool : hyperv1.NodePool) (store : Store) :
    (reconcile env hcluster infra nodePool store).store = store ∨
    ∃ name np1 wanted wms tmpl,
      generateMachineSetName infra.InfrastructureName nodePool.Spec.ClusterName nodePool.Name =
        some name ∧
      reconcileMode env { Namespace := hcluster.Name, Name := name } nodePool store =
        (np1, .proceed wanted) ∧
      generateScalableResources env infra.InfrastructureName infra.Region np1 hcluster.Name
        (some wanted) = .ok (wms, tmpl) ∧
      (reconcile env hcluster infra nodePool store).store =
        (reconcileUpsert env (isAutoscalingEnabled nodePool) np1 wms tmpl store).1 := by
  cases hn : generateMachineSetName infra.InfrastructureName nodePool.Spec.ClusterName
      nodePool.Name with
  | none => left; simp only [reconcile, reconcileConverge, hn]
  | some name =>
    cases hm : reconcileMode env { Namespace := hcluster.Name, Name := name } nodePool store with
    | mk np1 step =>
      cases step with
      | stop o => left; simp only [reconcile, reconcileConverge, hn, hm]
      | proceed wanted =>
        cases hg : generateScalableResources env infra.InfrastructureName infra.Region np1
            hcluster.Name (some wanted) with
        | panic => left; simp only [reconcile, reconcileConverge, hn, hm, hg]
        | err e => left; simp only [reconcile, reconcileConverge, hn, hm, hg]
        | ok p =>
          obtain ⟨wms, tmpl⟩ := p
          refine Or.inr ⟨name, np1, wanted, wms, tmpl, rfl, hm, hg, ?_⟩
          cases hu : reconcileUpsert env (isAutoscalingEnabled nodePool) np1 wms tmpl store with
          | mk store1 r =>
            cases r <;> simp only [reconcile, reconcileConverge, hn, hm, hg, hu]

/-- The outcome of mode resolution, when it stops the pass, carries an error
or is an abort. -/
theorem reconcileMode_stop (env : Env) (key : ObjectKey) (nodePool np1 : hyperv1.NodePool)
    (store : Store) (o : Outcome) (h : reconcileMode env key nodePool store = (np1, .stop o))
    (res : ctrl.Result) : o ≠ .returned res none := by
  unfold reconcileMode at h
  split at h
  · split at h
    · simp only [Prod.mk.injEq, ModeStep.stop.injEq] at h
      rw [← h.2]; simp
    · simp only [Prod.mk.injEq, ModeStep.stop.injEq] at h
      rw [← h.2]; simp
    · simp only [] at h
      split at h
      · simp only [Prod.mk.injEq, ModeStep.stop.injEq] at h
        rw [← h.2]; simp
      · split at h <;> simp at h
  · simp at h

/-- A pass that returns without error went through every stage: the name was
generated, mode resolution went on, the compilation and the upsert succeeded,
and the pass ends with the store of the upsert and the outcome of the status
update. -/
theorem reconcile_success (env : Env) (hcluster : hyperv1.HostedCluster)
    (infra : configv1.Infrastructure) (nodePool : hyperv1.NodePool) (store : Store)
    (res : ctrl.Result)
    (h : (reconcile env hcluster infra nodePool store).outcome = .returned res none) :
    ∃ name np1 wanted wms tmpl store1 ms,
      generateMachineSetName infra.InfrastructureName nodePool.Spec.ClusterName nodePool.Name =
        some name ∧
      reconcileMode env { Namespace := hcluster.Name, Name := name } nodePool store =
        (np1, .proceed wanted) ∧
      generateScalableResources env infra.InfrastructureName infra.Region np1 hcluster.Name
        (some wanted) = .ok (wms, tmpl) ∧
      reconcileUpsert env (isAutoscalingEnabled nodePool) np1 wms tmpl store =
        (store1, .ok ms) ∧
      (reconcile env hcluster infra nodePool store).store = store1 ∧
      (reconcileStatus env (isAutoscalingEnabled nodePool) np1 ms).2 = .returned res none := by
  cases hn : generateMachineSetName infra.InfrastructureName nodePool.Spec.ClusterName
      nodePool.Name with
  | none => simp [reconcile, reconcileConverge, hn] at h
  | some name =>
    cases hm : reconcileMode env { Namespace := hcluster.Name, Name := name } nodePool store with
    | mk np1 step =>
      cases step with
      | stop o =>
        simp only [reconcile, reconcileConverge, hn, hm] at h
        exact absurd h (reconcileMode_stop env _ nodePool np1 store o hm res)
      | proceed wanted =>
        cases hg : generateScalableResources env infra.InfrastructureName infra.Region np1
            hcluster.Name (some wanted) with
        | panic => simp [reconcile, reconcileConverge, hn, hm, hg] at h
        | err e => simp [reconcile, reconcileConverge, hn, hm, hg] at h
        | ok p =>
          obtain ⟨wms, tmpl⟩ := p
          cases hu : reconcileUpsert env (isAutoscalingEnabled nodePool) np1 wms tmpl store with
          | mk store1 r =>
            cases r with
            | panic => simp [reconcile, reconcileConverge, hn, hm, hg, hu] at h
            | err e => simp [reconcile, reconcileConverge, hn, hm, hg, hu] at h
            | ok ms =>
              simp only [reconcile, reconcileConverge, hn, hm, hg, hu] at h
              refine ⟨name, np1, wanted, wms, tmpl, store1, ms, rfl, hm, hg, hu, ?_, h⟩
              simp only [reconcile, reconcileConverge, hn, hm, hg, hu]

/-! ## The upsert: the claims -/

theorem GoMap.lookup_delete_self (m : GoMap) (k : GoString) : (m.delete k).lookup k = none := by
  cases m with
  | none => rfl
  | some es => exact mapLookup_mapDelete_self k es

theorem GoMap.lookup_delete_of_ne (m : GoMap) (j k : GoString) (h : j ≠ k) :
    (m.delete j).lookup k = m.lookup k := by
  cases m with
  | none => rfl
  | some es => exact mapLookup_mapDelete_of_ne k j h es

theorem isAutoscalingEnabled_of_none (nodePool : hyperv1.NodePool)
    (h : nodePool.Spec.AutoScaling = none) : isAutoscalingEnabled nodePool = false := by
  unfold isAutoscalingEnabled; rw [h]; rfl

theorem isAutoscalingEnabled_of_ne_none (nodePool : hyperv1.NodePool)
    (h : nodePool.Spec.AutoScaling ≠ none) : isAutoscalingEnabled nodePool = true := by
  unfold isAutoscalingEnabled
  cases hq : nodePool.Spec.AutoScaling with
  | none => exact absurd hq h
  | some a => rfl

/-- C6: for a node pool without autoscaling section and with declared count n,
and every store (whatever compute-group it holds for the pool), after a pass
that returns without error the compute-group stored under the pool's generated
name carries neither the autoscaler-min nor the autoscaler-max annotation and
its replica count is n. -/
theorem reconcile_fixed_count_resets_machineSet (env : Env) (hcluster : hyperv1.HostedCluster)
    (infra : configv1.Infrastructure) (nodePool : hyperv1.NodePool) (store : Store)
    (n : Int) (res : ctrl.Result) (hfixed : nodePool.Spec.AutoScaling = none)
    (hn : nodePool.Spec.NodeCount = some n)
    (hok : (reconcile env hcluster infra nodePool store).outcome = .returned res none) :
    ∃ name ms,
      generateMachineSetName infra.InfrastructureName nodePool.Spec.ClusterName nodePool.Name =
        some name ∧
      storeGet capiv1.MachineSet.key { Namespace := hcluster.Name, Name := name }
        (reconcile env hcluster infra nodePool store).store.machineSets = some ms ∧
      ms.Annotations.lookup autoscalerMinAnnotation = none ∧
      ms.Annotations.lookup autoscalerMaxAnnotation = none ∧
      ms.Spec.Replicas = some n := by
  obtain ⟨name, np1, wanted, wms, tmpl, store1, ms, h1, h2, h3, h4, h5, _⟩ :=
    reconcile_success env hcluster infra nodePool store res hok
  obtain ⟨_, _, _, _, _, hfix, _⟩ := reconcileMode_proceed env _ nodePool np1 store wanted h2
  obtain ⟨hnp, _⟩ := hfix hfixed
  subst hnp
  obtain ⟨name1, g1, g2, _, _, _, _⟩ :=
    generateScalableResources_ok env _ _ np1 hcluster.Name (some wanted) wms tmpl h3
  rw [h1] at g1
  simp only [Option.some.injEq] at g1
  subst g1
  rw [isAutoscalingEnabled_of_none np1 hfixed] at h4
  obtain ⟨_, u1, u2⟩ := reconcileUpsert_ok env false np1 wms ms tmpl store store1 h4
  rw [g2] at u1
  have hm : ∃ b, mutateMachineSet false np1 b = .ok ms := by
    rcases u2 with ⟨_, hb⟩ | ⟨b, _, hb⟩
    · exact ⟨wms, hb⟩
    · exact ⟨b, hb⟩
  obtain ⟨b, hb⟩ := hm
  have hms := mutateMachineSet_fixed np1 b ms hb
  refine ⟨name, ms, h1, ?_, ?_, ?_, ?_⟩
  · rw [h5]; exact u1
  · rw [hms]
    simp only []
    rw [GoMap.lookup_delete_of_ne _ _ _ (Ne.symm autoscaler_annotations_ne)]
    exact GoMap.lookup_delete_self _ _
  · rw [hms]
    exact GoMap.lookup_delete_self _ _
  · rw [hms]
    exact hn

/-- C6 at the pool "p1" edited to fixed count 2 after a pass in autoscaling
mode (bounds min 1 / max 3) stored its compute-group with the autoscaler
annotations and replica count 1. -/
theorem reconcile_fixed_count_resets_machineSet_witness :
    (storeGet capiv1.MachineSet.key exampleKey autoscaledStore.machineSets).map
        (fun ms0 => (ms0.Annotations.lookup autoscalerMinAnnotation,
          ms0.Annotations.lookup autoscalerMaxAnnotation, ms0.Spec.Replicas)) =
      some (some (str "1"), some (str "3"), some 1) ∧
    ∃ name ms,
      generateMachineSetName exampleInfra.InfrastructureName
        (examplePool (some 2) none).Spec.ClusterName (examplePool (some 2) none).Name =
        some name ∧
      storeGet capiv1.MachineSet.key { Namespace := exampleCluster.Name, Name := name }
        (reconcile quietEnv exampleCluster exampleInfra (examplePool (some 2) none)
          autoscaledStore).store.machineSets = some ms ∧
      ms.Annotations.lookup autoscalerMinAnnotation = none ∧
      ms.Annotations.lookup autoscalerMaxAnnotation = none ∧
      ms.Spec.Replicas = some 2 :=
  ⟨by decide,
   reconcile_fixed_count_resets_machineSet quietEnv exampleCluster exampleInfra
    (examplePool (some 2) none) autoscaledStore 2 { Requeue := true, RequeueAfter := 0 }
    rfl rfl (by decide)⟩

/-- C7: for a node pool with an autoscaling section, after a pass that returns
without error (so the bounds are valid) the compute-group stored under the
pool's generated name has replica count 1 when no compute-group was stored
under that name before the pass, and otherwise the replica count the stored
compute-group had before the pass. -/
theorem reconcile_autoscaling_keeps_replicas (env : Env) (hcluster : hyperv1.HostedCluster)
    (infra : configv1.Infrastructure) (nodePool : hyperv1.NodePool) (store : Store)
    (res : ctrl.Result) (hauto : nodePool.Spec.AutoScaling ≠ none)
    (hok : (reconcile env hcluster infra nodePool store).outcome = .returned res none) :
    validateAutoscalingParameters nodePool = .ok () ∧
    ∃ name ms,
      generateMachineSetName infra.InfrastructureName nodePool.Spec.ClusterName nodePool.Name =
        some name ∧
      storeGet capiv1.MachineSet.key { Namespace := hcluster.Name, Name := name }
        (reconcile env hcluster infra nodePool store).store.machineSets = some ms ∧
      (storeGet capiv1.MachineSet.key { Namespace := hcluster.Name, Name := name }
          store.machineSets = none → ms.Spec.Replicas = some 1) ∧
      (∀ ms0, storeGet capiv1.MachineSet.key { Namespace := hcluster.Name, Name := name }
          store.machineSets = some ms0 → ms.Spec.Replicas = ms0.Spec.Replicas) := by
  obtain ⟨name, np1, wanted, wms, tmpl, store1, ms, h1, h2, h3, h4, h5, _⟩ :=
    reconcile_success env hcluster infra nodePool store res hok
  obtain ⟨e1, _, e3, _, _, _, hau⟩ := reconcileMode_proceed env _ nodePool np1 store wanted h2
  obtain ⟨hvalid, _, hone⟩ := hau hauto
  obtain ⟨name1, g1, g2, _, g4, _, _⟩ :=
    generateScalableResources_ok env _ _ np1 hcluster.Name (some wanted) wms tmpl h3
  rw [e1, e3, h1] at g1
  simp only [Option.some.injEq] at g1
  subst g1
  rw [isAutoscalingEnabled_of_ne_none nodePool hauto] at h4
  obtain ⟨_, u1, u2⟩ := reconcileUpsert_ok env true np1 wms ms tmpl store store1 h4
  rw [g2] at u1 u2
  refine ⟨hvalid, name, ms, h1, ?_, ?_, ?_⟩
  · rw [h5]; exact u1
  · intro hnone
    rcases u2 with ⟨_, hb⟩ | ⟨b, hs, _⟩
    · obtain ⟨_, _, _, _, _, _, _, _, hms⟩ := mutateMachineSet_auto np1 wms ms hb
      rw [hms]
      simp only []
      rw [g4, hone hnone]
    · rw [hnone] at hs; simp at hs
  · intro ms0 hsome
    rcases u2 with ⟨hs, _⟩ | ⟨b, hs, hb⟩
    · rw [hsome] at hs; simp at hs
    · rw [hsome] at hs
      simp only [Option.some.injEq] at hs
      subst hs
      obtain ⟨_, _, _, _, _, _, _, _, hms⟩ := mutateMachineSet_auto np1 ms0 ms hb
      rw [hms]

/-- C7 at the pool "p1" with bounds min 1 / max 3 and declared count 2: from
the empty store the compute-group gets 1 replica; from a store whose
compute-group has 5 replicas it keeps 5. -/
theorem reconcile_autoscaling_keeps_replicas_witness :
    ((storeGet capiv1.MachineSet.key exampleKey
        (reconcile quietEnv exampleCluster exampleInfra (examplePool (some 2) (some (bounds 1 3)))
          emptyStore).store.machineSets).map (fun ms => ms.Spec.Replicas) = some (some 1)) ∧
    ((storeGet capiv1.MachineSet.key exampleKey fixedStore.machineSets).map
        (fun ms => ms.Spec.Replicas) = some (some 5)) ∧
    ((storeGet capiv1.MachineSet.key exampleKey
        (reconcile quietEnv exampleCluster exampleInfra (examplePool (some 2) (some (bounds 1 3)))
          fixedStore).store.machineSets).map (fun ms => ms.Spec.Replicas) = some (some 5)) := by
  have first := reconcile_autoscaling_keeps_replicas quietEnv exampleCluster exampleInfra
    (examplePool (some 2) (some (bounds 1 3))) emptyStore ctrl.Result.zero (by decide)
    (by decide)
  have second := reconcile_autoscaling_keeps_replicas quietEnv exampleCluster exampleInfra
    (examplePool (some 2) (some (bounds 1 3))) fixedStore ctrl.Result.zero (by decide)
    (by decide)
  obtain ⟨_, name, ms, a1, a2, a3, _⟩ := first
  obtain ⟨_, name2, ms2, b1, b2, _, b4⟩ := second
  have hname : generateMachineSetName exampleInfra.InfrastructureName
      (examplePool (some 2) (some (bounds 1 3))).Spec.ClusterName
      (examplePool (some 2) (some (bounds 1 3))).Name = some exampleKey.Name := by decide
  rw [hname] at a1 b1
  simp only [Option.some.injEq] at a1 b1
  subst a1; subst b1
  have hkey : ({ Namespace := exampleCluster.Name, Name := exampleKey.Name } : ObjectKey) =
      exampleKey := rfl
  rw [hkey] at a2 a3 b2 b4
  refine ⟨?_, by decide, ?_⟩
  · rw [a2]
    simp only [Option.map_some']
    rw [a3 (by decide)]
  · rw [b2]
    simp only [Option.map_some']
    cases hs : storeGet capiv1.MachineSet.key exampleKey fixedStore.machineSets with
    | none => exact absurd hs (by decide)
    | some ms0 =>
      rw [b4 ms0 hs]
      have h5 : (storeGet capiv1.MachineSet.key exampleKey fixedStore.machineSets).map
          (fun ms => ms.Spec.Replicas) = some (some 5) := by decide
      rw [hs] at h5
      simpa using h5

/-- A pass for a pool without autoscaling section and without fixed count
never returns without error: when it reaches the status update it aborts on
the nil fixed count. -/
theorem reconcile_unset_count_fails (env : Env) (hcluster : hyperv1.HostedCluster)
    (infra : configv1.Infrastructure) (nodePool : hyperv1.NodePool) (store : Store)
    (res : ctrl.Result) (hfixed : nodePool.Spec.AutoScaling = none)
    (hn : nodePool.Spec.NodeCount = none) :
    (reconcile env hcluster infra nodePool store).outcome ≠ .returned res none := by
  intro hok
  obtain ⟨name, np1, wanted, wms, tmpl, store1, ms, _, h2, _, _, _, h6⟩ :=
    reconcile_success env hcluster infra nodePool store res hok
  obtain ⟨_, _, _, _, _, hfix, _⟩ := reconcileMode_proceed env _ nodePool np1 store wanted h2
  obtain ⟨hnp, _⟩ := hfix hfixed
  subst hnp
  rw [isAutoscalingEnabled_of_none np1 hfixed] at h6
  unfold reconcileStatus at h6
  simp only [Bool.not_false, if_true, hn] at h6
  exact absurd h6 (by simp)

/-- C8, on the code: the pass for the pool "p1" without autoscaling section and
without fixed count, from the empty store and with no API call failing, aborts
(nil dereference of the fixed count in the status update) after it has stored
a compute-group whose replica count is nil, not 0. -/
theorem reconcile_unset_count_panics :
    (examplePool none none).Spec.AutoScaling = none ∧
    (examplePool none none).Spec.NodeCount = none ∧
    (reconcile quietEnv exampleCluster exampleInfra (examplePool none none) emptyStore).outcome =
      .panicked ∧
    (storeGet capiv1.MachineSet.key exampleKey
      (reconcile quietEnv exampleCluster exampleInfra (examplePool none none)
        emptyStore).store.machineSets).map (fun ms => ms.Spec.Replicas) = some none := by
  refine ⟨rfl, rfl, by decide, by decide⟩

/-! ## The status update: the claims -/

/-- A pass that reaches the status update got there through every stage, with
the local `isAutoscalingEnabled` computed from the node pool as passed in. -/
theorem reconcileConverge_upserted (env : Env) (hcluster : hyperv1.HostedCluster)
    (infra : configv1.Infrastructure) (nodePool np1 : hyperv1.NodePool) (store store1 : Store)
    (isAuto : Bool) (ms : capiv1.MachineSet)
    (h : reconcileConverge env hcluster infra nodePool store = .upserted isAuto np1 store1 ms) :
    isAuto = isAutoscalingEnabled nodePool ∧
    ∃ name wanted,
      reconcileMode env { Namespace := hcluster.Name, Name := name } nodePool store =
        (np1, .proceed wanted) := by
  cases hn : generateMachineSetName infra.InfrastructureName nodePool.Spec.ClusterName
      nodePool.Name with
  | none => simp [reconcileConverge, hn] at h
  | some name =>
    cases hm : reconcileMode env { Namespace := hcluster.Name, Name := name } nodePool store with
    | mk np2 step =>
      cases step with
      | stop o => simp [reconcileConverge, hn, hm] at h
      | proceed wanted =>
        cases hg : generateScalableResources env infra.InfrastructureName infra.Region np2
            hcluster.Name (some wanted) with
        | panic => simp [reconcileConverge, hn, hm, hg] at h
        | err e => simp [reconcileConverge, hn, hm, hg] at h
        | ok p =>
          obtain ⟨wms, tmpl⟩ := p
          cases hu : reconcileUpsert env (isAutoscalingEnabled nodePool) np2 wms tmpl store with
          | mk store2 r =>
            cases r with
            | panic => simp [reconcileConverge, hn, hm, hg, hu] at h
            | err e => simp [reconcileConverge, hn, hm, hg, hu] at h
            | ok ms2 =>
              simp only [reconcileConverge, hn, hm, hg, hu, Converged.upserted.injEq] at h
              obtain ⟨h1, h2, _, _⟩ := h
              subst h2
              exact ⟨h1.symm, name, wanted, hm⟩

/-- The requeue rule where the code keeps it: for a pass that reaches the
status update, where it reads `observed` available replicas off the
compute-group: without autoscaling section and with a declared count n the
pass returns without error and requests a requeue if and only if observed
differs from n; with an autoscaling section it returns the zero result (no
requeue) without error, whatever the observed count.  A pass without
autoscaling section and without declared count is not covered: it aborts. -/
theorem reconcile_requeue_iff_drift (env : Env) (hcluster : hyperv1.HostedCluster)
    (infra : configv1.Infrastructure) (nodePool : hyperv1.NodePool) (store : Store)
    (observed : Int) (h : observedReplicas env hcluster infra nodePool store = some observed) :
    (∀ n, nodePool.Spec.AutoScaling = none → nodePool.Spec.NodeCount = some n →
      ∃ res, (reconcile env hcluster infra nodePool store).outcome = .returned res none ∧
        (res.Requeue = true ↔ observed ≠ n)) ∧
    (nodePool.Spec.AutoScaling ≠ none →
      (reconcile env hcluster infra nodePool store).outcome =
        .returned { Requeue := false, RequeueAfter := 0 } none) := by
  unfold observedReplicas at h
  cases hc : reconcileConverge env hcluster infra nodePool store with
  | ended e => rw [hc] at h; simp at h
  | upserted isAuto np1 store1 ms =>
    rw [hc] at h
    simp only [Option.some.injEq] at h
    obtain ⟨hb, name, wanted, hm⟩ :=
      reconcileConverge_upserted env hcluster infra nodePool np1 store store1 isAuto ms hc
    obtain ⟨_, _, _, _, _, hfix, _⟩ := reconcileMode_proceed env _ nodePool np1 store wanted hm
    constructor
    · intro n hfixed hn
      obtain ⟨hnp, _⟩ := hfix hfixed
      subst hnp
      rw [isAutoscalingEnabled_of_none np1 hfixed] at hb
      subst hb
      simp only [reconcile, hc, reconcileStatus, Bool.not_false, if_true, hn, h]
      by_cases hd : observed = n
      · subst hd
        exact ⟨ctrl.Result.zero, by simp, by simp [ctrl.Result.zero]⟩
      · refine ⟨{ Requeue := true, RequeueAfter := 0 }, ?_, by simp [hd]⟩
        rw [if_pos hd]
    · intro hauto
      rw [isAutoscalingEnabled_of_ne_none nodePool hauto] at hb
      subst hb
      simp only [reconcile, hc, reconcileStatus, Bool.not_true, Bool.false_eq_true, if_false]
      rfl

/-- The requeue rule at declared count 3 with 1 available replica observed:
the pass requests a requeue; and at bounds min 1 / max 3 with the same store:
the pass returns the zero result. -/
theorem reconcile_requeue_iff_drift_witness :
    (∃ res, (reconcile quietEnv exampleCluster exampleInfra (examplePool (some 3) none)
      driftStore).outcome = .returned res none ∧ res.Requeue = true) ∧
    (reconcile quietEnv exampleCluster exampleInfra (examplePool (some 3) (some (bounds 1 3)))
      driftStore).outcome = .returned { Requeue := false, RequeueAfter := 0 } none := by
  have fixed := (reconcile_requeue_iff_drift quietEnv exampleCluster exampleInfra
    (examplePool (some 3) none) driftStore 1 (by decide)).1 3 rfl rfl
  have auto := (reconcile_requeue_iff_drift quietEnv exampleCluster exampleInfra
    (examplePool (some 3) (some (bounds 1 3))) driftStore 1 (by decide)).2 (by decide)
  obtain ⟨res, h1, h2⟩ := fixed
  exact ⟨⟨res, h1, h2.2 (by decide)⟩, auto⟩

/-- C9, on the code: the pass for the pool "p1" without autoscaling section and
without fixed count reaches the status update, where it observes 1 available
replica on a store whose compute-group reports 1, and 0 on the empty store.
The declared target defaults to 0, so the first pass should request a requeue
and the second should end without one; both abort instead (nil dereference of
the fixed count in the comparison), so neither returns an outcome. -/
theorem reconcile_unset_count_no_requeue :
    (examplePool none none).Spec.AutoScaling = none ∧
    (examplePool none none).Spec.NodeCount = none ∧
    observedReplicas quietEnv exampleCluster exampleInfra (examplePool none none) driftStore =
      some 1 ∧
    (reconcile quietEnv exampleCluster exampleInfra (examplePool none none) driftStore).outcome =
      .panicked ∧
    observedReplicas quietEnv exampleCluster exampleInfra (examplePool none none) emptyStore =
      some 0 ∧
    (reconcile quietEnv exampleCluster exampleInfra (examplePool none none) emptyStore).outcome =
      .panicked := by
  refine ⟨rfl, rfl, by decide, by decide, by decide, by decide⟩

/-! ## Idempotence: the claim -/

theorem GoMap.delete_of_lookup_none (m : GoMap) (k : GoString) (h : m.lookup k = none) :
    m.delete k = m := by
  cases m with
  | none => rfl
  | some es =>
    simp only [GoMap.delete]
    rw [mapDelete_of_lookup_none k es h]

/-- The mutate function without autoscaling leaves its own result as it is. -/
theorem mutateMachineSet_fixed_idem (nodePool np2 : hyperv1.NodePool) (b m : capiv1.MachineSet)
    (h : mutateMachineSet false nodePool b = .ok m)
    (hn : np2.Spec.NodeCount = nodePool.Spec.NodeCount) :
    mutateMachineSet false np2 m = .ok m := by
  have hm := mutateMachineSet_fixed nodePool b m h
  have hmin : m.Annotations.lookup autoscalerMinAnnotation = none := by
    rw [hm]
    simp only []
    rw [GoMap.lookup_delete_of_ne _ _ _ (Ne.symm autoscaler_annotations_ne)]
    exact GoMap.lookup_delete_self _ _
  have hmax : m.Annotations.lookup autoscalerMaxAnnotation = none := by
    rw [hm]
    exact GoMap.lookup_delete_self _ _
  have hrep : m.Spec.Replicas = np2.Spec.NodeCount := by
    rw [hm, hn]
  unfold mutateMachineSet
  simp only [Bool.not_false, if_true, Bool.false_eq_true, if_false, Call.ok.injEq]
  rw [GoMap.delete_of_lookup_none _ _ hmin, GoMap.delete_of_lookup_none _ _ hmax, ← hrep]

/-- The mutate function with autoscaling leaves its own result as it is. -/
theorem mutateMachineSet_auto_idem (nodePool np2 : hyperv1.NodePool) (b m : capiv1.MachineSet)
    (h : mutateMachineSet true nodePool b = .ok m)
    (ha : np2.Spec.AutoScaling = nodePool.Spec.AutoScaling) :
    mutateMachineSet true np2 m = .ok m := by
  obtain ⟨a, max, min, es, h1, h2, h3, _, hm⟩ := mutateMachineSet_auto nodePool b m h
  have hann : m.Annotations = some (mapSet autoscalerMinAnnotation (Itoa min)
      (mapSet autoscalerMaxAnnotation (Itoa max) es)) := by rw [hm]
  have hmax : mapLookup autoscalerMaxAnnotation (mapSet autoscalerMinAnnotation (Itoa min)
      (mapSet autoscalerMaxAnnotation (Itoa max) es)) = some (Itoa max) := by
    rw [mapLookup_mapSet_of_ne _ _ _ autoscaler_annotations_ne]
    exact mapLookup_mapSet_self _ _ _
  have hmin : mapLookup autoscalerMinAnnotation (mapSet autoscalerMinAnnotation (Itoa min)
      (mapSet autoscalerMaxAnnotation (Itoa max) es)) = some (Itoa min) :=
    mapLookup_mapSet_self _ _ _
  unfold mutateMachineSet
  simp only [Bool.not_true, Bool.false_eq_true, if_false, if_true, ha, h1, h2, h3, hann,
    GoMap.assign]
  rw [mapSet_of_lookup _ _ _ hmax, mapSet_of_lookup _ _ _ hmin, ← hann]

/-- No stage of a pass changes the name, cluster name or autoscaling section of
the node pool object, nor, without autoscaling section, its fixed count. -/
theorem reconcileMode_frame (env : Env) (key : ObjectKey) (nodePool : hyperv1.NodePool)
    (store : Store) :
    (reconcileMode env key nodePool store).1.Name = nodePool.Name ∧
    (reconcileMode env key nodePool store).1.Spec.ClusterName = nodePool.Spec.ClusterName ∧
    (reconcileMode env key nodePool store).1.Spec.AutoScaling = nodePool.Spec.AutoScaling ∧
    (nodePool.Spec.AutoScaling = none →
      (reconcileMode env key nodePool store).1.Spec.NodeCount = nodePool.Spec.NodeCount) := by
  unfold reconcileMode
  cases ha : nodePool.Spec.AutoScaling with
  | none =>
    simp [isAutoscalingEnabled_of_none nodePool ha, ha]
  | some a =>
    simp only [isAutoscalingEnabled_of_ne_none nodePool (by rw [ha]; simp), if_true]
    cases validateAutoscalingParameters nodePool with
    | panic => exact ⟨rfl, rfl, ha, fun hq => by simp at hq⟩
    | err e => exact ⟨rfl, rfl, ha, fun hq => by simp at hq⟩
    | ok u =>
      simp only []
      cases env.getMachineSetErr with
      | some e => exact ⟨rfl, rfl, ha, fun hq => by simp at hq⟩
      | none =>
        simp only []
        cases storeGet capiv1.MachineSet.key key store.machineSets <;>
          exact ⟨rfl, rfl, ha, fun hq => by simp at hq⟩

theorem reconcileStatus_frame (env : Env) (isAuto : Bool) (nodePool : hyperv1.NodePool)
    (ms : capiv1.MachineSet) :
    (reconcileStatus env isAuto nodePool ms).1.Name = nodePool.Name ∧
    (reconcileStatus env isAuto nodePool ms).1.Spec = nodePool.Spec := by
  unfold reconcileStatus
  cases isAuto with
  | true => exact ⟨rfl, rfl⟩
  | false =>
    simp only [Bool.not_false, if_true]
    cases nodePool.Spec.NodeCount with
    | none => exact ⟨rfl, rfl⟩
    | some n =>
      simp only []
      split <;> exact ⟨rfl, rfl⟩

theorem reconcile_frame (env : Env) (hcluster : hyperv1.HostedCluster)
    (infra : configv1.Infrastructure) (nodePool : hyperv1.NodePool) (store : Store) :
    (reconcile env hcluster infra nodePool store).nodePool.Name = nodePool.Name ∧
    (reconcile env hcluster infra nodePool store).nodePool.Spec.ClusterName =
      nodePool.Spec.ClusterName ∧
    (reconcile env hcluster infra nodePool store).nodePool.Spec.AutoScaling =
      nodePool.Spec.AutoScaling ∧
    (nodePool.Spec.AutoScaling = none →
      (reconcile env hcluster infra nodePool store).nodePool.Spec.NodeCount =
        nodePool.Spec.NodeCount) := by
  cases hn : generateMachineSetName infra.InfrastructureName nodePool.Spec.ClusterName
      nodePool.Name with
  | none =>
    simp [reconcile, reconcileConverge, hn]
  | some name =>
    have hf := reconcileMode_frame env { Namespace := hcluster.Name, Name := name } nodePool store
    cases hm : reconcileMode env { Namespace := hcluster.Name, Name := name } nodePool store with
    | mk np1 step =>
      rw [hm] at hf
      simp only [] at hf
      cases step with
      | stop o =>
        simp only [reconcile, reconcileConverge, hn, hm]
        exact hf
      | proceed wanted =>
        cases hg : generateScalableResources env infra.InfrastructureName infra.Region np1
            hcluster.Name (some wanted) with
        | panic => simp only [reconcile, reconcileConverge, hn, hm, hg]; exact hf
        | err e => simp only [reconcile, reconcileConverge, hn, hm, hg]; exact hf
        | ok p =>
          obtain ⟨wms, tmpl⟩ := p
          cases hu : reconcileUpsert env (isAutoscalingEnabled nodePool) np1 wms tmpl store with
          | mk store1 r =>
            cases r with
            | panic => simp only [reconcile, reconcileConverge, hn, hm, hg, hu]; exact hf
            | err e => simp only [reconcile, reconcileConverge, hn, hm, hg, hu]; exact hf
            | ok ms =>
              simp only [reconcile, reconcileConverge, hn, hm, hg, hu]
              obtain ⟨s1, s2⟩ := reconcileStatus_frame env (isAutoscalingEnabled nodePool) np1 ms
              rw [s1, s2]
              exact hf

/-- After a pass that returned without error, a pass for a node pool object
with the same name, cluster name and autoscaling section (and, without
autoscaling section, the same fixed count) writes nothing, whatever its
environment. -/
theorem reconcile_second_pass (env1 env2 : Env) (hcluster : hyperv1.HostedCluster)
    (infra : configv1.Infrastructure) (nodePool np2 : hyperv1.NodePool) (store : Store)
    (res : ctrl.Result)
    (hok : (reconcile env1 hcluster infra nodePool store).outcome = .returned res none)
    (e1 : np2.Name = nodePool.Name) (e2 : np2.Spec.ClusterName = nodePool.Spec.ClusterName)
    (e3 : np2.Spec.AutoScaling = nodePool.Spec.AutoScaling)
    (e4 : nodePool.Spec.AutoScaling = none → np2.Spec.NodeCount = nodePool.Spec.NodeCount) :
    (reconcile env2 hcluster infra np2 (reconcile env1 hcluster infra nodePool store).store).store
      = (reconcile env1 hcluster infra nodePool store).store := by
  obtain ⟨name, np1, wanted, wms, tmpl, store1, ms, h1, h2, h3, h4, h5, _⟩ :=
    reconcile_success env1 hcluster infra nodePool store res hok
  rw [h5]
  obtain ⟨m1, _, m3, m4, _, mfix, _⟩ := reconcileMode_proceed env1 _ nodePool np1 store wanted h2
  obtain ⟨name1, g1, g2, g3, _, _, _⟩ :=
    generateScalableResources_ok env1 _ _ np1 hcluster.Name (some wanted) wms tmpl h3
  rw [m1, m3, h1] at g1
  simp only [Option.some.injEq] at g1
  subst g1
  obtain ⟨⟨t, ut, _⟩, um, ub⟩ :=
    reconcileUpsert_ok env1 _ np1 wms ms tmpl store store1 h4
  rw [g3] at ut
  rw [g2] at um
  have hb : ∃ b, mutateMachineSet (isAutoscalingEnabled nodePool) np1 b = .ok ms := by
    rcases ub with ⟨_, hb⟩ | ⟨b, _, hb⟩
    · exact ⟨wms, hb⟩
    · exact ⟨b, hb⟩
  obtain ⟨b, hb⟩ := hb
  rcases reconcile_store env2 hcluster infra np2 store1 with hs | hs
  · exact hs
  · obtain ⟨name2, np3, wanted2, wms2, tmpl2, k1, k2, k3, k4⟩ := hs
    rw [k4]
    rw [e1, e2, h1] at k1
    simp only [Option.some.injEq] at k1
    subst k1
    obtain ⟨n1, _, n3, n4, _, nfix, _⟩ :=
      reconcileMode_proceed env2 _ np2 np3 store1 wanted2 k2
    obtain ⟨name3, j1, j2, j3, _, _, _⟩ :=
      generateScalableResources_ok env2 _ _ np3 hcluster.Name (some wanted2) wms2 tmpl2 k3
    rw [n1, n3, e1, e2, h1] at j1
    simp only [Option.some.injEq] at j1
    subst j1
    have hauto : isAutoscalingEnabled np2 = isAutoscalingEnabled nodePool := by
      unfold isAutoscalingEnabled; rw [e3]
    rw [hauto]
    apply reconcileUpsert_fixed env2 _ np3 wms2 ms tmpl2 t store1
    · rw [j3]; exact ut
    · rw [j2]; exact um
    · cases ha : nodePool.Spec.AutoScaling with
      | none =>
        rw [isAutoscalingEnabled_of_none nodePool ha] at hb ⊢
        obtain ⟨hnp, _⟩ := mfix ha
        obtain ⟨hnp3, _⟩ := nfix (by rw [e3]; exact ha)
        subst hnp; subst hnp3
        exact mutateMachineSet_fixed_idem np1 np3 b ms hb (e4 ha)
      | some a =>
        have hne : nodePool.Spec.AutoScaling ≠ none := by rw [ha]; simp
        rw [isAutoscalingEnabled_of_ne_none nodePool hne] at hb ⊢
        exact mutateMachineSet_auto_idem np1 np3 b ms hb (by rw [n4, e3, m4])

/-- C10: after a pass that returned without error, running the pass a second
time on the store it left, with the declaration as the first pass was given it
or as the first pass left it, and whatever the second pass meets (API errors,
another image), leaves the store exactly as the first pass left it: the same
compute-templates and compute-groups, none added, every replica count as it
was. -/
theorem reconcile_idempotent (env1 env2 : Env) (hcluster : hyperv1.HostedCluster)
    (infra : configv1.Infrastructure) (nodePool : hyperv1.NodePool) (store : Store)
    (res : ctrl.Result)
    (hok : (reconcile env1 hcluster infra nodePool store).outcome = .returned res none) :
    (reconcile env2 hcluster infra nodePool
      (reconcile env1 hcluster infra nodePool store).store).store =
      (reconcile env1 hcluster infra nodePool store).store ∧
    (reconcile env2 hcluster infra (reconcile env1 hcluster infra nodePool store).nodePool
      (reconcile env1 hcluster infra nodePool store).store).store =
      (reconcile env1 hcluster infra nodePool store).store := by
  obtain ⟨f1, f2, f3, f4⟩ := reconcile_frame env1 hcluster infra nodePool store
  exact ⟨reconcile_second_pass env1 env2 hcluster infra nodePool nodePool store res hok
      rfl rfl rfl (fun _ => rfl),
    reconcile_second_pass env1 env2 hcluster infra nodePool _ store res hok f1 f2 f3 f4⟩

/-- C10 at the pool "p1" with bounds min 1 / max 3 from the empty store, and
at the same pool edited to fixed count 2 on the store the autoscaling pass
left: the second pass changes nothing. -/
theorem reconcile_idempotent_witness :
    (reconcile quietEnv exampleCluster exampleInfra (examplePool none (some (bounds 1 3)))
      autoscaledStore).store = autoscaledStore ∧
    (reconcile quietEnv exampleCluster exampleInfra (examplePool (some 2) none)
      (reconcile quietEnv exampleCluster exampleInfra (examplePool (some 2) none)
        autoscaledStore).store).store =
      (reconcile quietEnv exampleCluster exampleInfra (examplePool (some 2) none)
        autoscaledStore).store :=
  ⟨(reconcile_idempotent quietEnv quietEnv exampleCluster exampleInfra
      (examplePool none (some (bounds 1 3))) emptyStore ctrl.Result.zero (by decide)).1,
   (reconcile_idempotent quietEnv quietEnv exampleCluster exampleInfra
      (examplePool (some 2) none) autoscaledStore { Requeue := true, RequeueAfter := 0 }
      (by decide)).1⟩

/-! ## Totality of `getName` and the validation failure: the claims -/

/-- C16: getName is total.  For every base, suffix and integer maxLength it
returns a string (no slice is out of range); for maxLength at most 0 the string
is empty; and for a too-long join the bounds of each slice it takes lie within
the sliced string: of base up to min(len(base), max(0, maxLength - 9)) and of
the spliced short name up to min(maxLength, len(shortName)) when the suffix is
too long, of base up to maxLength - 10 - len(suffix) otherwise. -/
theorem getName_total (base suffix : GoString) (maxLength : Int) :
    (∃ r, getName base suffix maxLength = some r) ∧
    (maxLength ≤ 0 → getName base suffix maxLength = some []) ∧
    (0 < maxLength → maxLength < len (sprintfDash base suffix) →
      (maxLength - 10 - len suffix < 0 →
        (0 ≤ min (len base) (max 0 (maxLength - 9)) ∧
          min (len base) (max 0 (maxLength - 9)) ≤ len base) ∧
        ∀ pre, slice base 0 (min (len base) (max 0 (maxLength - 9))) = some pre →
          0 ≤ min maxLength (len (sprintfDash pre (hash (sprintfDash base suffix)))) ∧
          min maxLength (len (sprintfDash pre (hash (sprintfDash base suffix)))) ≤
            len (sprintfDash pre (hash (sprintfDash base suffix)))) ∧
      (¬ maxLength - 10 - len suffix < 0 →
        0 ≤ maxLength - 10 - len suffix ∧ maxLength - 10 - len suffix ≤ len base)) := by
  have hb := len_nonneg base
  have hs := len_nonneg suffix
  refine ⟨?_, ?_, ?_⟩
  · by_cases h : 0 ≤ maxLength
    · obtain ⟨r, hr, _⟩ := getName_bounded base suffix maxLength h
      exact ⟨r, hr⟩
    · exact ⟨[], by unfold getName; rw [if_pos (by omega)]⟩
  · intro h
    unfold getName
    rw [if_pos h]
  · intro h0 hl
    rw [len_sprintfDash] at hl
    refine ⟨fun _ => ⟨⟨?_, min_le_left _ _⟩, fun pre _ => ⟨?_, min_le_right _ _⟩⟩,
      fun hbl => ⟨by omega, by omega⟩⟩
    · unfold min; split
      · exact max_zero_nonneg _
      · exact hb
    · have hn := len_nonneg (sprintfDash pre (hash (sprintfDash base suffix)))
      unfold min; split <;> omega

theorem generateMachineSetName_some (infraName clusterName suffix : GoString) :
    ∃ name, generateMachineSetName infraName clusterName suffix = some name := by
  obtain ⟨r, hr, _⟩ := getName_bounded (sprintfDash infraName clusterName) suffix 43 (by decide)
  exact ⟨r, hr⟩

/-- After `SetStatusCondition`, the first condition of the type carries the
status, reason and message that were set. -/
theorem FindStatusCondition_set (now : Nat) (conditions : List metav1.Condition)
    (n : metav1.Condition) :
    ∃ c, FindStatusCondition (SetStatusCondition now conditions n) n.Type_ = some c ∧
      c.Type_ = n.Type_ ∧ c.Status = n.Status ∧ c.Reason = n.Reason ∧ c.Message = n.Message := by
  induction conditions with
  | nil =>
    simp only [SetStatusCondition, FindStatusCondition, if_true]
    exact ⟨_, rfl, rfl, rfl, rfl, rfl⟩
  | cons c rest ih =>
    by_cases h : c.Type_ = n.Type_
    · simp only [SetStatusCondition, h, if_true, FindStatusCondition]
      exact ⟨_, rfl, rfl, rfl, rfl, rfl⟩
    · simp only [SetStatusCondition, h, if_false, FindStatusCondition]
      exact ih

/-- C13: for every node pool whose autoscaling section is present and fails
validation, reconcile leaves the autoscaling-enabled condition with status
False, reason ValidationFailed and the validation error as message, returns
that error wrapped, with the zero result (no requeue), and leaves the store of
compute-templates and compute-groups as it was. -/
theorem reconcile_validation_failed (env : Env) (hcluster : hyperv1.HostedCluster)
    (infra : configv1.Infrastructure) (nodePool : hyperv1.NodePool) (store : Store)
    (hauto : nodePool.Spec.AutoScaling ≠ none)
    (hinvalid : validateAutoscalingParameters nodePool ≠ .ok ()) :
    ∃ e c, validateAutoscalingParameters nodePool = .err e ∧
      (reconcile env hcluster infra nodePool store).outcome =
        .returned { Requeue := false, RequeueAfter := 0 }
          (some (.wrap (str "error validating autoscaling parameters") e)) ∧
      (reconcile env hcluster infra nodePool store).store = store ∧
      FindStatusCondition (reconcile env hcluster infra nodePool store).nodePool.Status.Conditions
        hyperv1.NodePoolAutoscalingEnabledConditionType = some c ∧
      c.Status = .ConditionFalse ∧
      c.Reason = hyperv1.NodePoolValidationFailedConditionReason ∧
      c.Message = .ofError e := by
  obtain ⟨name, hn⟩ := generateMachineSetName_some infra.InfrastructureName
    nodePool.Spec.ClusterName nodePool.Name
  have hen := isAutoscalingEnabled_of_ne_none nodePool hauto
  cases hv : validateAutoscalingParameters nodePool with
  | ok u => exact absurd hv hinvalid
  | panic =>
    unfold validateAutoscalingParameters at hv
    cases ha : nodePool.Spec.AutoScaling with
    | none => exact absurd ha hauto
    | some a =>
      rw [ha] at hv
      simp only [] at hv
      split at hv
      · split at hv
        · simp at hv
        · split at hv <;> simp at hv
      · simp at hv
  | err e =>
    obtain ⟨c, hc, _, h2, h3, h4⟩ := FindStatusCondition_set env.now nodePool.Status.Conditions
      { Type_ := hyperv1.NodePoolAutoscalingEnabledConditionType
        Status := .ConditionFalse
        LastTransitionTime := none
        Reason := hyperv1.NodePoolValidationFailedConditionReason
        Message := .ofError e }
    refine ⟨e, c, rfl, ?_, ?_, ?_, h2, h3, h4⟩
    · simp only [reconcile, reconcileConverge, hn, reconcileMode, hen, hv, if_true]
      rfl
    · simp only [reconcile, reconcileConverge, hn, reconcileMode, hen, hv, if_true]
    · simp only [reconcile, reconcileConverge, hn, reconcileMode, hen, hv, if_true]
      exact hc

/-- C13 at the pool "p1" with bounds max 3 / min 5, and at bounds max 0 /
min 0. -/
theorem reconcile_validation_failed_witness :
    (reconcile quietEnv exampleCluster exampleInfra (examplePool (some 2) (some (bounds 5 3)))
      emptyStore).outcome =
      .returned { Requeue := false, RequeueAfter := 0 }
        (some (.wrap (str "error validating autoscaling parameters") (.maxLessThanMin 3 5))) ∧
    (reconcile quietEnv exampleCluster exampleInfra (examplePool (some 2) (some (bounds 5 3)))
      emptyStore).store = emptyStore ∧
    (reconcile quietEnv exampleCluster exampleInfra (examplePool none (some (bounds 0 0)))
      fixedStore).store = fixedStore := by
  obtain ⟨e, c, h1, h2, h3, _⟩ := reconcile_validation_failed quietEnv exampleCluster
    exampleInfra (examplePool (some 2) (some (bounds 5 3))) emptyStore (by decide) (by decide)
  obtain ⟨_, _, _, _, k3, _⟩ := reconcile_validation_failed quietEnv exampleCluster
    exampleInfra (examplePool none (some (bounds 0 0))) fixedStore (by decide) (by decide)
  have he : validateAutoscalingParameters (examplePool (some 2) (some (bounds 5 3))) =
      .err (.maxLessThanMin 3 5) := by decide
  rw [he] at h1
  simp only [Call.err.injEq] at h1
  subst h1
  exact ⟨h2, h3, k3⟩

/-! ## The compiler: the claims -/

/-- The compiler reads the name, namespace, cluster name, autoscaling section
and platform section of the node pool and nothing else of it. -/
theorem generateScalableResources_congr (env : Env) (infraName region : GoString)
    (np1 np2 : hyperv1.NodePool) (targetNamespace : GoString) (replicas : Option Int)
    (h1 : np1.Name = np2.Name) (h2 : np1.Namespace = np2.Namespace)
    (h3 : np1.Spec.ClusterName = np2.Spec.ClusterName)
    (h4 : np1.Spec.AutoScaling = np2.Spec.AutoScaling) (h5 : np1.Spec.AWS = np2.Spec.AWS) :
    generateScalableResources env infraName region np1 targetNamespace replicas =
      generateScalableResources env infraName region np2 targetNamespace replicas := by
  simp only [generateScalableResources, isAutoscalingEnabled, h1, h2, h3, h4, h5]

/-- C14, as stated, fails: the store holds a compute-template under the derived
name of pool "p1" with instance type "m4.large" and image "ami-0000"; the pass
returns without error; the compiled template has instance type "m5.large" and
image "ami-0123"; the stored template after the pass is still the old one. -/
theorem stale_template_kept :
    (reconcile quietEnv exampleCluster exampleInfra (examplePool (some 2) none)
      staleStore).outcome = .returned { Requeue := true, RequeueAfter := 0 } none ∧
    storeGet capiaws.AWSMachineTemplate.key exampleKey
      (reconcile quietEnv exampleCluster exampleInfra (examplePool (some 2) none)
        staleStore).store.templates = some staleTemplate ∧
    ((generateScalableResources quietEnv exampleInfra.InfrastructureName exampleInfra.Region
      (examplePool (some 2) none) exampleCluster.Name (some 2)).value?.map
        fun p => (p.2.key, p.2.Spec.InstanceType, p.2.Spec.AMI.ID)) =
      some (exampleKey, str "m5.large", some (str "ami-0123")) ∧
    staleTemplate.Spec.InstanceType = str "m4.large" ∧
    staleTemplate.Spec.AMI.ID = some (str "ami-0000") := by
  refine ⟨by decide, by decide, by decide, by decide, by decide⟩

/-- C14, amended: after a pass that returns without error a compute-template
is stored under the pool's derived name; when none was stored under that name
before the pass it is the freshly compiled template, and when one was stored
it is that one, unchanged. -/
theorem reconcile_template_created_or_kept (env : Env) (hcluster : hyperv1.HostedCluster)
    (infra : configv1.Infrastructure) (nodePool : hyperv1.NodePool) (store : Store)
    (res : ctrl.Result)
    (hok : (reconcile env hcluster infra nodePool store).outcome = .returned res none) :
    ∃ name t,
      generateMachineSetName infra.InfrastructureName nodePool.Spec.ClusterName nodePool.Name =
        some name ∧
      storeGet capiaws.AWSMachineTemplate.key { Namespace := hcluster.Name, Name := name }
        (reconcile env hcluster infra nodePool store).store.templates = some t ∧
      (storeGet capiaws.AWSMachineTemplate.key { Namespace := hcluster.Name, Name := name }
          store.templates = none →
        ∃ wanted wms, generateScalableResources env infra.InfrastructureName infra.Region
          nodePool hcluster.Name (some wanted) = .ok (wms, t)) ∧
      (∀ t0, storeGet capiaws.AWSMachineTemplate.key { Namespace := hcluster.Name, Name := name }
          store.templates = some t0 → t = t0) := by
  obtain ⟨name, np1, wanted, wms, tmpl, store1, ms, h1, h2, h3, h4, h5, _⟩ :=
    reconcile_success env hcluster infra nodePool store res hok
  obtain ⟨m1, m2, m3, m4, m5, _, _⟩ := reconcileMode_proceed env _ nodePool np1 store wanted h2
  rw [generateScalableResources_congr env _ _ np1 nodePool _ _ m1 m2 m3 m4 m5] at h3
  obtain ⟨name1, g1, _, g3, _, _, _⟩ :=
    generateScalableResources_ok env _ _ nodePool hcluster.Name (some wanted) wms tmpl h3
  rw [h1] at g1
  simp only [Option.some.injEq] at g1
  subst g1
  obtain ⟨⟨t, ut, uc⟩, _, _⟩ := reconcileUpsert_ok env _ np1 wms ms tmpl store store1 h4
  rw [g3] at ut uc
  refine ⟨name, t, h1, ?_, ?_, ?_⟩
  · rw [h5]; exact ut
  · intro hnone
    rcases uc with ⟨_, ht⟩ | hs
    · subst ht
      exact ⟨wanted, wms, h3⟩
    · rw [hnone] at hs; simp at hs
  · intro t0 hsome
    rcases uc with ⟨hs, _⟩ | hs
    · rw [hsome] at hs; simp at hs
    · rw [hsome] at hs
      simp only [Option.some.injEq] at hs
      exact hs.symm

/-- C14, amended, at the pool "p1" from the empty store (the compiled template
is stored) and from the store with the stale template (it is kept). -/
theorem reconcile_template_created_or_kept_witness :
    ((storeGet capiaws.AWSMachineTemplate.key exampleKey
        (reconcile quietEnv exampleCluster exampleInfra (examplePool (some 2) none)
          emptyStore).store.templates).map fun t => t.Spec.InstanceType) =
      some (str "m5.large") ∧
    storeGet capiaws.AWSMachineTemplate.key exampleKey
      (reconcile quietEnv exampleCluster exampleInfra (examplePool (some 2) none)
        staleStore).store.templates = some staleTemplate := by
  obtain ⟨name, t, a1, a2, _, a4⟩ := reconcile_template_created_or_kept quietEnv
    exampleCluster exampleInfra (examplePool (some 2) none) staleStore
    { Requeue := true, RequeueAfter := 0 } (by decide)
  have hname : generateMachineSetName exampleInfra.InfrastructureName
      (examplePool (some 2) none).Spec.ClusterName (examplePool (some 2) none).Name =
      some exampleKey.Name := by decide
  rw [hname] at a1
  simp only [Option.some.injEq] at a1
  subst a1
  have hkey : ({ Namespace := exampleCluster.Name, Name := exampleKey.Name } : ObjectKey) =
      exampleKey := rfl
  rw [hkey] at a2 a4
  refine ⟨by decide, ?_⟩
  rw [a2, a4 staleTemplate (by decide)]

/-- The compiler aborts whenever the listing yields an image and the
autoscaling section has a positive max and a nil min. -/
theorem generateScalableResources_nil_min (env : Env) (infraName region : GoString)
    (nodePool : hyperv1.NodePool) (targetNamespace : GoString) (replicas : Option Int)
    (AMI : GoString) (rest : List NestedString) (a : hyperv1.NodePoolAutoScaling) (max : Int)
    (hl : env.listErr = none) (hi : env.listItems = .found AMI :: rest)
    (ha : nodePool.Spec.AutoScaling = some a) (hmax : a.Max = some max) (hpos : max > 0)
    (hmin : a.Min = none) :
    generateScalableResources env infraName region nodePool targetNamespace replicas = .panic := by
  obtain ⟨name, hn⟩ := generateMachineSetName_some infraName nodePool.Spec.ClusterName
    nodePool.Name
  simp only [generateScalableResources, hl, hi, hn, isAutoscalingEnabled, ha, hmax, hmin,
    Option.isSome_some, if_true, hpos]

/-- C15, on the code: for the pool "p1" marked for deletion with autoscaling
section max 3 and nil min, generateScalableResources aborts on the nil min
instead of returning a resource set or an error, and so does the Reconcile call
that reaches it through the deletion branch. -/
theorem generateScalableResources_nil_min_panics :
    generateScalableResources quietEnv exampleInfra.InfrastructureName exampleInfra.Region
      (deletingPool (some { Min := none, Max := some 3 })) (str "c1") none = .panic ∧
    (Reconcile (quietReconcileEnv quietEnv) examplePoolKey
      (clusterOf (deletingPool (some { Min := none, Max := some 3 })))).2 = .panicked := by
  refine ⟨by decide, by decide⟩

/-- What the compiler returns refers to the template by its name and by the
namespace of the node pool, while the template is in the target namespace. -/
theorem generateScalableResources_infrastructureRef (env : Env) (infraName region : GoString)
    (nodePool : hyperv1.NodePool) (targetNamespace : GoString) (replicas : Option Int)
    (ms : capiv1.MachineSet) (tmpl : capiaws.AWSMachineTemplate)
    (h : generateScalableResources env infraName region nodePool targetNamespace replicas =
      .ok (ms, tmpl)) :
    ms.Spec.Template.Spec.InfrastructureRef.Name = tmpl.Name ∧
    ms.Spec.Template.Spec.InfrastructureRef.Namespace = nodePool.Namespace ∧
    tmpl.Namespace = targetNamespace ∧ ms.Namespace = targetNamespace := by
  unfold generateScalableResources at h
  cases hl : env.listErr with
  | some e => rw [hl] at h; simp at h
  | none =>
    rw [hl] at h
    simp only [] at h
    cases hi : env.listItems with
    | nil => rw [hi] at h; simp at h
    | cons item rest =>
      rw [hi] at h
      cases item with
      | absent => simp at h
      | malformed => simp at h
      | found AMI =>
        simp only [] at h
        cases hn : generateMachineSetName infraName nodePool.Spec.ClusterName nodePool.Name with
        | none => rw [hn] at h; simp at h
        | some name =>
          rw [hn] at h
          simp only [] at h
          split at h
          · simp at h
          · simp at h
          · simp only [Call.ok.injEq, Prod.mk.injEq] at h
            obtain ⟨h1, h2⟩ := h
            subst h1; subst h2
            exact ⟨rfl, rfl, rfl, rfl⟩

/-- C17, on the code: for the pool "p1" in namespace "clusters" and target
namespace "c1", the compiled compute-group and compute-template are both in
"c1" and the infrastructure reference names the template, but its namespace is
"clusters": it does not identify the template returned by the same call. -/
theorem infrastructureRef_namespace_differs :
    (generateScalableResources quietEnv exampleInfra.InfrastructureName exampleInfra.Region
      (examplePool (some 2) none) (str "c1") (some 2)).value?.map
      (fun p => (p.1.Spec.Template.Spec.InfrastructureRef.Name,
        p.1.Spec.Template.Spec.InfrastructureRef.Namespace, p.2.Name, p.2.Namespace,
        p.1.Namespace)) =
    some (str "infra-x-c1-p1", str "clusters", str "infra-x-c1-p1", str "c1", str "c1") := by
  decide

/-! ## The deletion branch: lemmas -/

theorem ContainsFinalizer_iff (nodePool : hyperv1.NodePool) (f : GoString) :
    ContainsFinalizer nodePool f = true ↔ f ∈ nodePool.Finalizers := by
  unfold ContainsFinalizer
  exact List.elem_iff

theorem RemoveFinalizer_not_mem (nodePool : hyperv1.NodePool) (f : GoString) :
    f ∉ (RemoveFinalizer nodePool f).Finalizers := by
  unfold RemoveFinalizer
  simp

theorem RemoveFinalizer_key (nodePool : hyperv1.NodePool) (f : GoString) :
    (RemoveFinalizer nodePool f).key = nodePool.key := rfl

theorem storeGet_delete {α : Type} (keyOf : α → ObjectKey) (key : ObjectKey) (objs : List α) :
    storeGet keyOf key (storeDelete keyOf key objs) = none := by
  induction objs with
  | nil => rfl
  | cons o rest ih =>
    by_cases h : keyOf o = key
    · simp only [storeDelete, h, if_true]
      exact ih
    · simp only [storeDelete, h, if_false, storeGet]
      exact ih

/-- A `Delete` that does not fail leaves no object under the key, and leaves
the store as it is when no object was stored under the key. -/
theorem clientDelete_not_failed {α : Type} (keyOf : α → ObjectKey) (deleteErr : Option GoString)
    (objs objs1 : List α) (obj : α) (r : DeleteResult)
    (h : clientDelete keyOf deleteErr objs obj = (objs1, r)) (hr : ∀ e, r ≠ .failed e) :
    deleteErr = none ∧ storeGet keyOf (keyOf obj) objs1 = none ∧
    (storeGet keyOf (keyOf obj) objs = none → objs1 = objs) := by
  unfold clientDelete at h
  cases deleteErr with
  | some e =>
    simp only [Prod.mk.injEq] at h
    exact absurd h.2.symm (hr _)
  | none =>
    simp only [] at h
    cases hg : storeGet keyOf (keyOf obj) objs with
    | none =>
      rw [hg] at h
      simp only [Prod.mk.injEq] at h
      rw [← h.1]
      exact ⟨rfl, hg, fun _ => rfl⟩
    | some o =>
      rw [hg] at h
      simp only [Prod.mk.injEq] at h
      rw [← h.1]
      exact ⟨rfl, storeGet_delete keyOf _ objs, fun hq => by simp at hq⟩

theorem clientDelete_failed {α : Type} (keyOf : α → ObjectKey) (e : GoString)
    (objs : List α) (obj : α) :
    clientDelete keyOf (some e) objs obj = (objs, .failed (.api e)) := rfl

/-- The metadata of the node pool object is not touched by a pass. -/
theorem reconcileMode_meta (env : Env) (key : ObjectKey) (nodePool : hyperv1.NodePool)
    (store : Store) :
    (reconcileMode env key nodePool store).1.Name = nodePool.Name ∧
    (reconcileMode env key nodePool store).1.Namespace = nodePool.Namespace ∧
    (reconcileMode env key nodePool store).1.Finalizers = nodePool.Finalizers := by
  unfold reconcileMode
  split
  · split
    · exact ⟨rfl, rfl, rfl⟩
    · exact ⟨rfl, rfl, rfl⟩
    · simp only []
      split
      · exact ⟨rfl, rfl, rfl⟩
      · split <;> exact ⟨rfl, rfl, rfl⟩
  · exact ⟨rfl, rfl, rfl⟩

theorem reconcileStatus_meta (env : Env) (isAuto : Bool) (nodePool : hyperv1.NodePool)
    (ms : capiv1.MachineSet) :
    (reconcileStatus env isAuto nodePool ms).1.Name = nodePool.Name ∧
    (reconcileStatus env isAuto nodePool ms).1.Namespace = nodePool.Namespace ∧
    (reconcileStatus env isAuto nodePool ms).1.Finalizers = nodePool.Finalizers := by
  unfold reconcileStatus
  cases isAuto with
  | true => exact ⟨rfl, rfl, rfl⟩
  | false =>
    simp only [Bool.not_false, if_true]
    cases nodePool.Spec.NodeCount with
    | none => exact ⟨rfl, rfl, rfl⟩
    | some n =>
      simp only []
      split <;> exact ⟨rfl, rfl, rfl⟩

theorem reconcile_meta (env : Env) (hcluster : hyperv1.HostedCluster)
    (infra : configv1.Infrastructure) (nodePool : hyperv1.NodePool) (store : Store) :
    (reconcile env hcluster infra nodePool store).nodePool.Name = nodePool.Name ∧
    (reconcile env hcluster infra nodePool store).nodePool.Namespace = nodePool.Namespace ∧
    (reconcile env hcluster infra nodePool store).nodePool.Finalizers = nodePool.Finalizers := by
  cases hn : generateMachineSetName infra.InfrastructureName nodePool.Spec.ClusterName
      nodePool.Name with
  | none => simp [reconcile, reconcileConverge, hn]
  | some name =>
    have hf := reconcileMode_meta env { Namespace := hcluster.Name, Name := name } nodePool store
    cases hm : reconcileMode env { Namespace := hcluster.Name, Name := name } nodePool store with
    | mk np1 step =>
      rw [hm] at hf
      simp only [] at hf
      cases step with
      | stop o =>
        simp only [reconcile, reconcileConverge, hn, hm]
        exact hf
      | proceed wanted =>
        cases hg : generateScalableResources env infra.InfrastructureName infra.Region np1
            hcluster.Name (some wanted) with
        | panic => simp only [reconcile, reconcileConverge, hn, hm, hg]; exact hf
        | err e => simp only [reconcile, reconcileConverge, hn, hm, hg]; exact hf
        | ok p =>
          obtain ⟨wms, tmpl⟩ := p
          cases hu : reconcileUpsert env (isAutoscalingEnabled nodePool) np1 wms tmpl store with
          | mk store1 r =>
            cases r with
            | panic => simp only [reconcile, reconcileConverge, hn, hm, hg, hu]; exact hf
            | err e => simp only [reconcile, reconcileConverge, hn, hm, hg, hu]; exact hf
            | ok ms =>
              simp only [reconcile, reconcileConverge, hn, hm, hg, hu]
              obtain ⟨s1, s2, s3⟩ :=
                reconcileStatus_meta env (isAutoscalingEnabled nodePool) np1 ms
              rw [s1, s2, s3]
              exact hf

/-- The convergence branch keeps the finalizer of a node pool that has it:
whatever it stores under the key of the node pool has the finalizer. -/
theorem reconcileNormal_keeps_finalizer (renv : ReconcileEnv) (hcluster : hyperv1.HostedCluster)
    (infra : configv1.Infrastructure) (nodePool np1 : hyperv1.NodePool) (cluster : Cluster)
    (hnp : storeGet hyperv1.NodePool.key nodePool.key cluster.nodePools = some nodePool)
    (hfin : finalizer ∈ nodePool.Finalizers)
    (h1 : storeGet hyperv1.NodePool.key nodePool.key
      (reconcileNormal renv hcluster infra nodePool cluster).1.nodePools = some np1) :
    finalizer ∈ np1.Finalizers := by
  have hc : ContainsFinalizer nodePool finalizer = true :=
    (ContainsFinalizer_iff nodePool finalizer).2 hfin
  have hsame : np1 = nodePool → finalizer ∈ np1.Finalizers := fun hq => hq ▸ hfin
  unfold reconcileNormal at h1
  simp only [hc, Bool.not_true, Bool.false_eq_true, if_false] at h1
  cases hh : renv.newHelperErr with
  | some e =>
    rw [hh] at h1
    simp only [] at h1
    rw [hnp] at h1
    exact hsame (Option.some.inj h1).symm
  | none =>
    rw [hh] at h1
    simp only [] at h1
    obtain ⟨m1, m2, m3⟩ := reconcile_meta renv.pass hcluster infra nodePool cluster.store
    cases ho : (reconcile renv.pass hcluster infra nodePool cluster.store).outcome with
    | panicked =>
      rw [ho] at h1
      simp only [] at h1
      rw [hnp] at h1
      exact hsame (Option.some.inj h1).symm
    | returned result err =>
      rw [ho] at h1
      simp only [] at h1
      cases hp : renv.patchErr with
      | some e =>
        rw [hp] at h1
        simp only [] at h1
        rw [hnp] at h1
        exact hsame (Option.some.inj h1).symm
      | none =>
        rw [hp] at h1
        simp only [] at h1
        have hk : (reconcile renv.pass hcluster infra nodePool cluster.store).nodePool.key =
            nodePool.key := by
          simp only [hyperv1.NodePool.key, m1, m2]
        rw [storeGet_update hyperv1.NodePool.key nodePool.key cluster.nodePools _ nodePool hnp hk]
          at h1
        rw [← Option.some.inj h1, m3]
        exact hfin

/-! ## The deletion branch: the claims -/

/-- Once the node pool, the hosted cluster and the infrastructure are read,
`Reconcile` is its deletion branch for a node pool marked for deletion and its
convergence branch otherwise. -/
theorem Reconcile_branch (renv : ReconcileEnv) (req : ObjectKey) (cluster : Cluster)
    (nodePool : hyperv1.NodePool) (hget : renv.getNodePoolErr = none)
    (hhc : renv.getHostedClusterErr = none) (hinfra : renv.getInfraErr = none)
    (hnp : storeGet hyperv1.NodePool.key req cluster.nodePools = some nodePool) :
    Reconcile renv req cluster =
      if nodePool.DeletionTimestamp.isSome then
        reconcileDelete renv renv.infra nodePool nodePool.Spec.ClusterName cluster
      else
        reconcileNormal renv { Name := nodePool.Spec.ClusterName } renv.infra nodePool cluster := by
  simp only [Reconcile, hget, hhc, hinfra, hnp]

theorem isSome_of_ne_none {α : Type} (o : Option α) (h : o ≠ none) : o.isSome = true := by
  cases o with
  | none => exact absurd rfl h
  | some a => rfl

/-- C11, as stated, fails: the pool "p1" is marked for deletion, has the
finalizer and no compute-group is stored; no API call fails, but no machine set
is listed in `openshift-machine-api`.  The deletion branch runs the compiler,
which returns "no machinesets found"; Reconcile returns that error and the
finalizer stays. -/
theorem deletion_runs_compiler_and_fails :
    (deletingPool none).DeletionTimestamp ≠ none ∧
    finalizer ∈ (deletingPool none).Finalizers ∧
    (clusterOf (deletingPool none)).store.machineSets = [] ∧
    Reconcile (quietReconcileEnv noImageEnv) examplePoolKey (clusterOf (deletingPool none)) =
      (clusterOf (deletingPool none),
        .returned ctrl.Result.zero
          (some (.wrap (str "failed to generate worker machineset") .noMachineSets))) := by
  refine ⟨by decide, by decide, rfl, by decide⟩

/-- C11, amended: for a node pool marked for deletion that has the finalizer,
when no API call fails the deletion branch of Reconcile runs the compiler
(generateScalableResources, without replica count) to learn the compute-group:
if the compiler returns a resource set and no compute-group is stored under
its key, Reconcile returns without error (the delete of the absent resource
counts as success), leaves the compute-groups and compute-templates as they
were and stores the node pool without the finalizer; if the compiler returns
an error, Reconcile returns that error and changes nothing. -/
theorem Reconcile_deletion_of_absent (renv : ReconcileEnv) (req : ObjectKey) (cluster : Cluster)
    (nodePool : hyperv1.NodePool) (hget : renv.getNodePoolErr = none)
    (hhc : renv.getHostedClusterErr = none) (hinfra : renv.getInfraErr = none)
    (hdel : renv.deleteErr = none) (hupd : renv.updateErr = none)
    (hnp : storeGet hyperv1.NodePool.key req cluster.nodePools = some nodePool)
    (hdt : nodePool.DeletionTimestamp ≠ none) (hfin : finalizer ∈ nodePool.Finalizers) :
    (∀ ms tmpl,
      generateScalableResources renv.pass renv.infra.InfrastructureName renv.infra.Region
        nodePool nodePool.Spec.ClusterName none = .ok (ms, tmpl) →
      storeGet capiv1.MachineSet.key ms.key cluster.store.machineSets = none →
      (Reconcile renv req cluster).2 = .returned { Requeue := false, RequeueAfter := 0 } none ∧
      (Reconcile renv req cluster).1.store = cluster.store ∧
      storeGet hyperv1.NodePool.key req (Reconcile renv req cluster).1.nodePools =
        some (RemoveFinalizer nodePool finalizer) ∧
      finalizer ∉ (RemoveFinalizer nodePool finalizer).Finalizers) ∧
    (∀ e,
      generateScalableResources renv.pass renv.infra.InfrastructureName renv.infra.Region
        nodePool nodePool.Spec.ClusterName none = .err e →
      Reconcile renv req cluster =
        (cluster, .returned { Requeue := false, RequeueAfter := 0 }
          (some (.wrap (str "failed to generate worker machineset") e)))) := by
  have hb := Reconcile_branch renv req cluster nodePool hget hhc hinfra hnp
  rw [if_pos (isSome_of_ne_none _ hdt)] at hb
  have hc : ContainsFinalizer nodePool finalizer = true :=
    (ContainsFinalizer_iff nodePool finalizer).2 hfin
  have hk : nodePool.key = req := storeGet_key _ _ _ _ hnp
  constructor
  · intro ms tmpl hgen habs
    have hd : clientDelete capiv1.MachineSet.key renv.deleteErr cluster.store.machineSets ms =
        (cluster.store.machineSets, .notFound) := by
      simp only [clientDelete, hdel, habs]
    have hr : Reconcile renv req cluster =
        ({ nodePools := storeUpdate hyperv1.NodePool.key (RemoveFinalizer nodePool finalizer)
            cluster.nodePools, store := cluster.store },
          .returned ctrl.Result.zero none) := by
      rw [hb]
      simp only [reconcileDelete, hgen, hd, hc, if_true, hupd]
    rw [hr]
    refine ⟨rfl, rfl, ?_, RemoveFinalizer_not_mem nodePool finalizer⟩
    exact storeGet_update hyperv1.NodePool.key req cluster.nodePools _ nodePool hnp
      ((RemoveFinalizer_key nodePool finalizer).trans hk)
  · intro e hgen
    rw [hb]
    simp only [reconcileDelete, hgen]
    rfl

/-- C11, amended, at the pool "p1" marked for deletion with nothing stored for
it: with an image listed the finalizer is removed without error. -/
theorem Reconcile_deletion_of_absent_witness :
    (Reconcile (quietReconcileEnv quietEnv) examplePoolKey (clusterOf (deletingPool none))).2 =
      .returned { Requeue := false, RequeueAfter := 0 } none ∧
    storeGet hyperv1.NodePool.key examplePoolKey
      (Reconcile (quietReconcileEnv quietEnv) examplePoolKey
        (clusterOf (deletingPool none))).1.nodePools =
      some (RemoveFinalizer (deletingPool none) finalizer) ∧
    (RemoveFinalizer (deletingPool none) finalizer).Finalizers = [] := by
  have h := (Reconcile_deletion_of_absent (quietReconcileEnv quietEnv) examplePoolKey
    (clusterOf (deletingPool none)) (deletingPool none) rfl rfl rfl rfl rfl (by decide)
    (by decide) (by decide)).1
  have hv : (generateScalableResources (quietReconcileEnv quietEnv).pass
      (quietReconcileEnv quietEnv).infra.InfrastructureName
      (quietReconcileEnv quietEnv).infra.Region (deletingPool none)
      (deletingPool none).Spec.ClusterName none).value?.isSome = true := by decide
  cases hg : generateScalableResources (quietReconcileEnv quietEnv).pass
      (quietReconcileEnv quietEnv).infra.InfrastructureName
      (quietReconcileEnv quietEnv).infra.Region (deletingPool none)
      (deletingPool none).Spec.ClusterName none with
  | panic => rw [hg] at hv; exact absurd hv (by decide)
  | err e => rw [hg] at hv; exact absurd hv (by simp [Call.value?])
  | ok p =>
    obtain ⟨ms, tmpl⟩ := p
    have habs : storeGet capiv1.MachineSet.key ms.key
        (clusterOf (deletingPool none)).store.machineSets = none := rfl
    obtain ⟨h1, _, h3, _⟩ := h ms tmpl hg habs
    exact ⟨h1, h3, by decide⟩

/-- What the deletion branch leaves when the stored node pool had the finalizer
and the node pool stored afterwards has not: the compiler returned a resource
set, `Delete` did not fail, and no compute-group is stored under the key. -/
theorem reconcileDelete_removed (renv : ReconcileEnv) (infra : configv1.Infrastructure)
    (nodePool np1 : hyperv1.NodePool) (targetNamespace : GoString) (cluster : Cluster)
    (hnp : storeGet hyperv1.NodePool.key nodePool.key cluster.nodePools = some nodePool)
    (hfin : finalizer ∈ nodePool.Finalizers)
    (h1 : storeGet hyperv1.NodePool.key nodePool.key
      (reconcileDelete renv infra nodePool targetNamespace cluster).1.nodePools = some np1)
    (h2 : finalizer ∉ np1.Finalizers) :
    renv.deleteErr = none ∧
    ∃ ms tmpl,
      generateScalableResources renv.pass infra.InfrastructureName infra.Region nodePool
        targetNamespace none = .ok (ms, tmpl) ∧
      storeGet capiv1.MachineSet.key ms.key
        (reconcileDelete renv infra nodePool targetNamespace cluster).1.store.machineSets =
        none := by
  have hsame : ∀ {P : Prop}, storeGet hyperv1.NodePool.key nodePool.key cluster.nodePools =
      some np1 → P := by
    intro P hq
    rw [hnp] at hq
    exact absurd ((Option.some.inj hq) ▸ hfin) h2
  have hc : ContainsFinalizer nodePool finalizer = true :=
    (ContainsFinalizer_iff nodePool finalizer).2 hfin
  cases hg : generateScalableResources renv.pass infra.InfrastructureName infra.Region nodePool
      targetNamespace none with
  | panic =>
    simp only [reconcileDelete, hg] at h1
    exact hsame h1
  | err e =>
    simp only [reconcileDelete, hg] at h1
    exact hsame h1
  | ok p =>
    obtain ⟨ms, tmpl⟩ := p
    cases hd : clientDelete capiv1.MachineSet.key renv.deleteErr cluster.store.machineSets ms with
    | mk objs1 r =>
      cases r with
      | failed e =>
        simp only [reconcileDelete, hg, hd] at h1
        exact hsame h1
      | deleted =>
        obtain ⟨d1, d2, _⟩ := clientDelete_not_failed _ _ _ _ _ _ hd (by intro e; simp)
        cases hu : renv.updateErr with
        | some e =>
          simp only [reconcileDelete, hg, hd, hc, if_true, hu] at h1
          exact hsame h1
        | none =>
          refine ⟨d1, ms, tmpl, rfl, ?_⟩
          simp only [reconcileDelete, hg, hd, hc, if_true, hu]
          exact d2
      | notFound =>
        obtain ⟨d1, d2, _⟩ := clientDelete_not_failed _ _ _ _ _ _ hd (by intro e; simp)
        cases hu : renv.updateErr with
        | some e =>
          simp only [reconcileDelete, hg, hd, hc, if_true, hu] at h1
          exact hsame h1
        | none =>
          refine ⟨d1, ms, tmpl, rfl, ?_⟩
          simp only [reconcileDelete, hg, hd, hc, if_true, hu]
          exact d2

/-- C12: for a node pool marked for deletion, when the delete of the owned
compute-group fails with an error other than already-absent, Reconcile returns
that error and writes nothing: the stored node pool, its finalizer list
included, is as it was.  And whenever a call of Reconcile leaves the stored
node pool without the finalizer it had, the node pool was marked for deletion,
the delete did not fail (it succeeded or reported the resource absent) and no
compute-group is stored under the key any more. -/
theorem Reconcile_finalizer_kept_on_delete_failure (renv : ReconcileEnv) (req : ObjectKey)
    (cluster : Cluster) (nodePool : hyperv1.NodePool)
    (hnp : storeGet hyperv1.NodePool.key req cluster.nodePools = some nodePool) :
    (nodePool.DeletionTimestamp ≠ none → renv.getNodePoolErr = none →
      renv.getHostedClusterErr = none → renv.getInfraErr = none →
      ∀ ms tmpl e,
        generateScalableResources renv.pass renv.infra.InfrastructureName renv.infra.Region
          nodePool nodePool.Spec.ClusterName none = .ok (ms, tmpl) →
        renv.deleteErr = some e →
        Reconcile renv req cluster =
          (cluster, .returned { Requeue := false, RequeueAfter := 0 }
            (some (.wrap (str "failed to delete nodePool") (.api e))))) ∧
    (finalizer ∈ nodePool.Finalizers →
      ∀ np1, storeGet hyperv1.NodePool.key req (Reconcile renv req cluster).1.nodePools =
          some np1 →
        finalizer ∉ np1.Finalizers →
        nodePool.DeletionTimestamp ≠ none ∧ renv.deleteErr = none ∧
        ∃ ms tmpl,
          generateScalableResources renv.pass renv.infra.InfrastructureName renv.infra.Region
            nodePool nodePool.Spec.ClusterName none = .ok (ms, tmpl) ∧
          storeGet capiv1.MachineSet.key ms.key (Reconcile renv req cluster).1.store.machineSets =
            none) := by
  have hk : nodePool.key = req := storeGet_key _ _ _ _ hnp
  constructor
  · intro hdt hget hhc hinfra ms tmpl e hgen hdel
    rw [Reconcile_branch renv req cluster nodePool hget hhc hinfra hnp,
      if_pos (isSome_of_ne_none _ hdt)]
    simp only [reconcileDelete, hgen, hdel, clientDelete_failed]
    rfl
  · intro hfin np1 h1 h2
    have hsame : ∀ {P : Prop}, storeGet hyperv1.NodePool.key req cluster.nodePools =
        some np1 → P := by
      intro P hq
      rw [hnp] at hq
      exact absurd ((Option.some.inj hq) ▸ hfin) h2
    cases hget : renv.getNodePoolErr with
    | some e =>
      simp only [Reconcile, hget] at h1
      exact hsame h1
    | none =>
      cases hhc : renv.getHostedClusterErr with
      | some e =>
        simp only [Reconcile, hget, hnp, hhc] at h1
        exact hsame (hnp.trans h1)
      | none =>
        cases hinfra : renv.getInfraErr with
        | some e =>
          simp only [Reconcile, hget, hnp, hhc, hinfra] at h1
          exact hsame (hnp.trans h1)
        | none =>
          have hb := Reconcile_branch renv req cluster nodePool hget hhc hinfra hnp
          rw [hb] at h1 ⊢
          cases hdt : nodePool.DeletionTimestamp with
          | none =>
            simp only [hdt, Option.isSome_none, Bool.false_eq_true, if_false] at h1
            rw [← hk] at hnp h1
            exact absurd (reconcileNormal_keeps_finalizer renv _ renv.infra nodePool np1 cluster
              hnp hfin h1) h2
          | some t =>
            simp only [hdt, Option.isSome_some, if_true] at h1 ⊢
            rw [← hk] at hnp h1
            obtain ⟨d1, ms, tmpl, d2, d3⟩ := reconcileDelete_removed renv renv.infra nodePool np1
              nodePool.Spec.ClusterName cluster hnp hfin h1 h2
            exact ⟨by simp, d1, ms, tmpl, d2, d3⟩

/-- C12 at the pool "p1" marked for deletion when `Delete` fails with
"etcd unavailable": Reconcile returns the error and the cluster is as it was;
when nothing fails the finalizer goes, and the delete had not failed. -/
theorem Reconcile_finalizer_kept_on_delete_failure_witness :
    Reconcile { quietReconcileEnv quietEnv with deleteErr := some (str "etcd unavailable") }
        examplePoolKey (clusterOf (deletingPool none)) =
      (clusterOf (deletingPool none),
        .returned { Requeue := false, RequeueAfter := 0 }
          (some (.wrap (str "failed to delete nodePool") (.api (str "etcd unavailable"))))) ∧
    (quietReconcileEnv quietEnv).deleteErr = none := by
  have h := Reconcile_finalizer_kept_on_delete_failure
    { quietReconcileEnv quietEnv with deleteErr := some (str "etcd unavailable") }
    examplePoolKey (clusterOf (deletingPool none)) (deletingPool none) (by decide)
  have k := Reconcile_finalizer_kept_on_delete_failure (quietReconcileEnv quietEnv)
    examplePoolKey (clusterOf (deletingPool none)) (deletingPool none) (by decide)
  refine ⟨?_, ?_⟩
  · have hv : (generateScalableResources quietEnv exampleInfra.InfrastructureName
        exampleInfra.Region (deletingPool none) (deletingPool none).Spec.ClusterName
        none).value?.isSome = true := by decide
    cases hg : generateScalableResources quietEnv exampleInfra.InfrastructureName
        exampleInfra.Region (deletingPool none) (deletingPool none).Spec.ClusterName none with
    | panic => rw [hg] at hv; exact absurd hv (by decide)
    | err e => rw [hg] at hv; exact absurd hv (by simp [Call.value?])
    | ok p =>
      obtain ⟨ms, tmpl⟩ := p
      exact h.1 (by decide) rfl rfl rfl ms tmpl (str "etcd unavailable") hg rfl
  · exact (k.2 (by decide) (RemoveFinalizer (deletingPool none) finalizer) (by decide)
      (by decide)).2.1


end Nodepool
